import Mathlib

/-!
Verification of the maya-cmds compatibility shim (scripts/blender/utils/cmds.py,
scripts/core/libs/types.py) and of the Qt tree-item mixin
(scripts/core/libs/pyside/abstractModel.py).

Python values that flow through the shim are embedded as the inductive type
PyVal; Python exceptions as PyErr; fallible code returns Except PyErr.
Host (Blender) lookups performed by asObject are abstracted by a Scene that
says which data-block names exist and which custom keys each object carries.
Floats are modelled as rationals.
-/

/-- Python exception classes raised by the embedded code.  Message payloads are
not tracked; each raise site is recorded in a comment next to its embedding. -/
inductive PyErr : Type where
  | runtimeError
  | typeError
  | valueError
  | indexError
  | keyError
  | attributeError
  | zeroDivisionError
  deriving DecidableEq, Repr

/-- Python values handled by the shim: None, booleans, ints, floats (as
rationals), strings, lists, tuples and host object references (identified by
their data-block name).  Dicts never reach the code paths covered by the
claims and are omitted. -/
inductive PyVal : Type where
  | none
  | bool (b : Bool)
  | int (n : Int)
  | float (q : Rat)
  | str (s : String)
  | list (xs : List PyVal)
  | tuple (xs : List PyVal)
  | obj (name : String)

mutual

/-- Boolean structural equality on PyVal (built by hand because the nested
List occurrence defeats deriving). -/
def PyVal.beq : PyVal → PyVal → Bool
  | .none, .none => true
  | .bool a, .bool b => a = b
  | .int a, .int b => a = b
  | .float a, .float b => a = b
  | .str a, .str b => a = b
  | .list a, .list b => PyVal.beqList a b
  | .tuple a, .tuple b => PyVal.beqList a b
  | .obj a, .obj b => a = b
  | _, _ => false

/-- Element-wise equality of PyVal lists. -/
def PyVal.beqList : List PyVal → List PyVal → Bool
  | [], [] => true
  | a :: as, b :: bs => PyVal.beq a b && PyVal.beqList as bs
  | _, _ => false

end

mutual

theorem PyVal.beq_iff : ∀ a b : PyVal, PyVal.beq a b = true ↔ a = b
  | .none, b => by cases b <;> simp [PyVal.beq]
  | .bool a, b => by cases b <;> simp [PyVal.beq]
  | .int a, b => by cases b <;> simp [PyVal.beq]
  | .float a, b => by cases b <;> simp [PyVal.beq]
  | .str a, b => by cases b <;> simp [PyVal.beq]
  | .list a, b => by
    cases b <;> simp [PyVal.beq]
    exact PyVal.beqList_iff a _
  | .tuple a, b => by
    cases b <;> simp [PyVal.beq]
    exact PyVal.beqList_iff a _
  | .obj a, b => by cases b <;> simp [PyVal.beq]

theorem PyVal.beqList_iff : ∀ xs ys : List PyVal, PyVal.beqList xs ys = true ↔ xs = ys
  | [], ys => by cases ys <;> simp [PyVal.beqList]
  | a :: as, ys => by
    cases ys with
    | nil => simp [PyVal.beqList]
    | cons b bs =>
      simp only [PyVal.beqList, Bool.and_eq_true, List.cons.injEq]
      exact and_congr (PyVal.beq_iff a b) (PyVal.beqList_iff as bs)

end

instance : DecidableEq PyVal := fun a b =>
  decidable_of_iff (PyVal.beq a b = true) (PyVal.beq_iff a b)

instance {ε α : Type} [DecidableEq ε] [DecidableEq α] : DecidableEq (Except ε α) := fun x y =>
  match x, y with
  | .ok a, .ok b =>
    if h : a = b then .isTrue (by rw [h]) else .isFalse (by simp [h])
  | .error a, .error b =>
    if h : a = b then .isTrue (by rw [h]) else .isFalse (by simp [h])
  | .ok _, .error _ => .isFalse (by simp)
  | .error _, .ok _ => .isFalse (by simp)

/-- Python truthiness of a value. -/
def PyVal.truthy : PyVal → Bool
  | .none => false
  | .bool b => b
  | .int n => decide (n ≠ 0)
  | .float q => decide (q ≠ 0)
  | .str s => !s.toList.isEmpty
  | .list xs => !xs.isEmpty
  | .tuple xs => !xs.isEmpty
  | .obj _ => true

/-- Test used for isType(v, [str]). -/
def PyVal.isStr : PyVal → Bool
  | .str _ => true
  | _ => false

/-- Test used for isType(v, [list, tuple]). -/
def PyVal.isListOrTuple : PyVal → Bool
  | .list _ => true
  | .tuple _ => true
  | _ => false

/-- Numeric reading of a value (bool is an int subclass in Python). -/
def PyVal.toRat? : PyVal → Option Rat
  | .int n => some (n : Rat)
  | .float q => some q
  | .bool b => some (if b then 1 else 0)
  | _ => Option.none

/-- Embeds types.fi restricted to lists: first item of a list, or None when
empty (types.py lines 72-84; asList of a list is the list itself). -/
def fi (xs : List PyVal) : PyVal :=
  match xs with
  | [] => .none
  | x :: _ => x

/-- Host state consulted by asObject: the names present in the bpy data-block
collections, and for each object the custom-property keys object.keys()
reports. -/
structure Scene : Type where
  objNames : List String
  objKeys : String → List String

/-- Embeds cmds.asObject (cmds.py lines 4115-4181) for the calls the claims
exercise, all of which pass dataType=None and forceObjects=False: a list or
tuple is replaced by its first item, a falsy value becomes None, a non-string
is returned directly, and a string is looked up in the bpy data-block
collections, giving the named object or None. -/
def asObject (sc : Scene) (obj : PyVal) : PyVal :=
  let obj := match obj with
    | .list xs => fi xs
    | .tuple xs => fi xs
    | v => v
  if !obj.truthy then .none
  else match obj with
    | .str s => if s ∈ sc.objNames then .obj s else .none
    | v => v

/-- Character class of the module-level regex reAttribute, cmds.py line 63:
re.compile of not-in [A-Za-z0-9 dash underscore]; sub removes every character
outside this class. -/
def allowedAttrChar (c : Char) : Bool :=
  c.isAlpha || c.isDigit || c = '-' || c = '_'

/-- Character class of the first capture group of the list-index regex in
resolveAttributeName, cmds.py line 1537: letters, digits, underscore, dash
and dot. -/
def isWordDotChar (c : Char) : Bool :=
  c.isAlpha || c.isDigit || c = '_' || c = '-' || c = '.'

/-- Reads the second capture group of the list-index regex: the characters
after an opening bracket when they are digits-then-closing-bracket, and
nothing otherwise. -/
def bracketDigits : List Char → Option (List Char)
  | [] => Option.none
  | c :: rest =>
    if c = ']' then some []
    else if c.isDigit then (bracketDigits rest).map (fun ds => c :: ds)
    else Option.none

/-- Scanner for the first match of the list-index regex
(word-class star, open bracket, digit star, close bracket): at the first
opening bracket followed by digits and a closing bracket, the match's first
group is the maximal word-class run just before the bracket and its second
group is the digit run.  The accumulator holds the current word run in
reverse. -/
def findBracketAux (run : List Char) : List Char → Option (List Char × List Char)
  | [] => Option.none
  | c :: rest =>
    if c = '[' then
      match bracketDigits rest with
      | some ds => some (run.reverse, ds)
      | Option.none => findBracketAux [] rest
    else if isWordDotChar c then findBracketAux (c :: run) rest
    else findBracketAux [] rest

/-- First match of re.findall of the list-index pattern used by
resolveAttributeName (cmds.py line 1537). -/
def findBracketMatch (cs : List Char) : Option (List Char × List Char) :=
  findBracketAux [] cs

/-- Embeds str.rsplit with separator dot and maxsplit one, for strings that
contain a dot: everything before the last dot, and everything after it. -/
def pyRsplitDot (s : String) : String × String :=
  let rev := s.toList.reverse
  let afterRev := rev.takeWhile (fun c => c ≠ '.')
  let beforeRev := rev.drop (afterRev.length + 1)
  (String.mk beforeRev.reverse, String.mk afterRev.reverse)

/-- CONSTANTS.attributeConversion (cmds.py lines 93-113) in insertion order:
canonical attribute name paired with the alias spellings that resolve to it. -/
def attributeConversion : List (String × List String) :=
  [ ("locationX", ["translateX", "translationX", "positionX", "tx", "lx"]),
    ("locationY", ["translateY", "translationY", "positionY", "ty", "ly"]),
    ("locationZ", ["translateZ", "translationZ", "positionZ", "tz", "lz"]),
    ("rotationX", ["rotateX", "rx", "rotation_eulerX"]),
    ("rotationY", ["rotateY", "ry", "rotation_eulerY"]),
    ("rotationZ", ["rotateZ", "rz", "rotation_eulerZ"]),
    ("scaleX", ["sx"]),
    ("scaleY", ["sy"]),
    ("scaleZ", ["sz"]),
    ("location", ["translation", "position", "t", "l"]),
    ("rotation", ["rotate", "r", "rotation_euler"]),
    ("scale", ["s"]),
    ("hide", ["visibility", "v", "h"]),
    ("matrix_local", ["m", "matrix", "localMatrix"]),
    ("matrix_world", ["wm", "worldMatrix"]),
    ("matrix_parent_inverse", ["inverseMatrix"]) ]

/-- CONSTANTS.attributeIndices (cmds.py line 118). -/
def attributeIndices : List (Char × Nat) :=
  [('X', 0), ('Y', 1), ('Z', 2), ('W', 3), ('R', 0), ('G', 1), ('B', 2), ('A', 3)]

/-- CONSTANTS.attributeIndicesInverse (cmds.py line 119). -/
def attributeIndicesInverse : List Char := ['X', 'Y', 'Z', 'W']

/-- The alias-table loop at the end of resolveAttributeName (cmds.py lines
1544-1548): the conversion key whose alias list contains the name, if any. -/
def conversionLookup (a : String) : Option String :=
  (attributeConversion.find? (fun kv => a ∈ kv.2)).map (fun kv => kv.1)

/-- Python int() applied to the digit string captured by the list-index regex:
ValueError on the empty string, else its decimal value. -/
def pyIntOfDigits (ds : List Char) : Except PyErr Nat :=
  match ds with
  | [] => .error .valueError
  | _ => .ok (ds.foldl (fun acc c => 10 * acc + (c.toNat - '0'.toNat)) 0)

/-- Python indexing of CONSTANTS.attributeIndicesInverse with a non-negative
int: IndexError when out of range. -/
def pyIndexChars (cs : List Char) (i : Nat) : Except PyErr Char :=
  match cs[i]? with
  | some c => .ok c
  | Option.none => .error .indexError

/-- Tail of resolveAttributeName once object and attribute are in their final
scalar forms (cmds.py lines 1532-1549): the custom-key check
(object truthy and attribute in object.keys(), which needs a host object —
any other truthy object has no keys() and raises AttributeError), then the
list-index regex (re.findall on a non-string raises TypeError), the
reAttribute strip, and the alias-table lookup. -/
def resolveScalar (sc : Scene) (object attr : PyVal) : Except PyErr PyVal := do
  let inKeys ← (if object.truthy then
      match object with
      | .obj n =>
        (match attr with
         | .str s => Except.ok (decide (s ∈ sc.objKeys n))
         | _ => Except.ok false)
      | _ => Except.error PyErr.attributeError
    else Except.ok false)
  if inKeys then return attr
  match attr with
  | .str s =>
    match findBracketMatch s.toList with
    | some (grp, ds) => do
      let idx ← pyIntOfDigits ds
      let ax ← pyIndexChars attributeIndicesInverse idx
      let a := String.mk (grp ++ [ax])
      return .str ((conversionLookup a).getD a)
    | Option.none =>
      let a := String.mk (s.toList.filter allowedAttrChar)
      return .str ((conversionLookup a).getD a)
  | _ => .error .typeError

mutual

/-- Embeds cmds.resolveAttributeName (cmds.py lines 1493-1549).  A falsy
attribute gives None; a string attribute with object None and a dot is
rsplit into object and attribute parts; the object goes through asObject
(asObject never returns a string, so the second asObject call in the source
is the identity here); with object still None a list or tuple attribute must
have exactly two entries, which are unpacked as object and attribute (the
unpacked object is used raw); a list or tuple attribute then resolves
element-wise into a list, and otherwise the scalar tail runs. -/
def resolveAttributeName (sc : Scene) (attr object : PyVal) : Except PyErr PyVal :=
  if !attr.truthy then .ok .none
  else
    match attr with
    | .str s =>
      if object = .none && s.toList.contains '.' then
        let oa := pyRsplitDot s
        resolveScalar sc (asObject sc (.str oa.1)) (.str oa.2)
      else
        resolveScalar sc (asObject sc object) (.str s)
    | .list xs =>
      if asObject sc object = .none then
        match xs with
        | [o, .list ys] => (resolveList sc o ys).map .list
        | [o, .tuple ys] => (resolveList sc o ys).map .list
        | [o, a] => resolveScalar sc o a
        | _ => .error .runtimeError
      else (resolveList sc (asObject sc object) xs).map .list
    | .tuple xs =>
      if asObject sc object = .none then
        match xs with
        | [o, .list ys] => (resolveList sc o ys).map .list
        | [o, .tuple ys] => (resolveList sc o ys).map .list
        | [o, a] => resolveScalar sc o a
        | _ => .error .runtimeError
      else (resolveList sc (asObject sc object) xs).map .list
    | a => resolveScalar sc (asObject sc object) a
termination_by (sizeOf attr, 1)

/-- The element-wise recursion of resolveAttributeName over a sequence of
attributes (cmds.py lines 1525-1527). -/
def resolveList (sc : Scene) (object : PyVal) : List PyVal → Except PyErr (List PyVal)
  | [] => .ok []
  | a :: rest => do
    let r ← resolveAttributeName sc a object
    let rs ← resolveList sc object rest
    return r :: rs
termination_by l => (sizeOf l, 0)

end

/-- The re.match test for rotation followed by an axis letter performed by
getAttributeIndex (cmds.py line 1481): the string starts with the word
rotation and its ninth character is X, Y, Z or W. -/
def rotationAxisMatch (s : String) : Bool :=
  match s.toList with
  | 'r' :: 'o' :: 't' :: 'a' :: 't' :: 'i' :: 'o' :: 'n' :: c :: _ =>
    c = 'X' || c = 'Y' || c = 'Z' || c = 'W'
  | _ => false

/-- Embeds str.replace of the pattern rotation by rotation_euler as called at
cmds.py line 1482: every non-overlapping occurrence, scanning left to
right. -/
def replaceRotation : List Char → List Char
  | 'r' :: 'o' :: 't' :: 'a' :: 't' :: 'i' :: 'o' :: 'n' :: rest =>
    'r' :: 'o' :: 't' :: 'a' :: 't' :: 'i' :: 'o' :: 'n' :: '_' :: 'e' :: 'u' :: 'l' :: 'e' :: 'r' ::
      replaceRotation rest
  | c :: rest => c :: replaceRotation rest
  | [] => []

/-- The rotation-to-rotation_euler rewrite in getAttributeIndex (cmds.py
lines 1481-1482); str.replace replaces every occurrence. -/
def rotationFix (s : String) : String :=
  if rotationAxisMatch s then String.mk (replaceRotation s.toList) else s

/-- The suffix-strip tail of getAttributeIndex (cmds.py lines 1484-1489):
indexing the last character raises IndexError on an empty name; a trailing
character present in CONSTANTS.attributeIndices is stripped and its index
returned, and otherwise the name is kept with index None. -/
def suffixStrip (s : String) : Except PyErr (PyVal × Option Nat) :=
  match s.toList.getLast? with
  | Option.none => .error .indexError
  | some ch =>
    match attributeIndices.find? (fun p => p.1 = ch) with
    | some p => .ok (.str (String.mk s.toList.dropLast), some p.2)
    | Option.none => .ok (.str s, Option.none)

/-- Embeds cmds.getAttributeIndex (cmds.py lines 1464-1490): a non-string
raises RuntimeError ('{0} is not a string'); the name is resolved with no
object, the rotation rewrite applied, and the trailing axis character
stripped and mapped to its index.  When the resolution returns None
(empty name) re.match receives None and raises TypeError. -/
def getAttributeIndex (sc : Scene) (attr : PyVal) : Except PyErr (PyVal × Option Nat) :=
  if !attr.isStr then .error .runtimeError
  else do
    let r ← resolveAttributeName sc attr .none
    match r with
    | .str s => suffixStrip (rotationFix s)
    | _ => .error .typeError

/-- Python len(): strings, lists and tuples are sized; any other value
raises TypeError. -/
def pyLen : PyVal → Except PyErr Nat
  | .str s => .ok s.toList.length
  | .list xs => .ok xs.length
  | .tuple xs => .ok xs.length
  | _ => .error .typeError

/-- Python subscripting with a non-negative index: IndexError out of range,
TypeError on a non-sequence. -/
def pySubscript (v : PyVal) (i : Nat) : Except PyErr PyVal :=
  match v with
  | .list xs => match xs[i]? with
    | some x => .ok x
    | Option.none => .error .indexError
  | .tuple xs => match xs[i]? with
    | some x => .ok x
    | Option.none => .error .indexError
  | .str s => match s.toList[i]? with
    | some c => .ok (.str (String.mk [c]))
    | Option.none => .error .indexError
  | _ => .error .typeError

/-- Python comparison used by min and max: numeric across int, float and
bool; lexicographic between strings; TypeError otherwise. -/
def pyLtB (a b : PyVal) : Except PyErr Bool :=
  match a.toRat?, b.toRat? with
  | some x, some y => .ok (decide (x < y))
  | _, _ =>
    match a, b with
    | .str x, .str y => .ok (decide (x < y))
    | _, _ => .error .typeError

/-- Python min() over the items of a sequence: ValueError when empty, else a
left fold that replaces the current best when the next item compares
smaller. -/
def pyMinList : List PyVal → Except PyErr PyVal
  | [] => .error .valueError
  | x :: rest => rest.foldlM (fun m y => do
      let lt ← pyLtB y m
      return if lt then y else m) x

/-- Python max() over the items of a sequence: ValueError when empty, else a
left fold that replaces the current best when the next item compares
larger. -/
def pyMaxList : List PyVal → Except PyErr PyVal
  | [] => .error .valueError
  | x :: rest => rest.foldlM (fun m y => do
      let lt ← pyLtB m y
      return if lt then y else m) x

/-- Python min() of a value: iterates lists, tuples and strings (a string
yields its one-character substrings); TypeError otherwise. -/
def pyMinSeq : PyVal → Except PyErr PyVal
  | .list xs => pyMinList xs
  | .tuple xs => pyMinList xs
  | .str s => pyMinList (s.toList.map (fun c => .str (String.mk [c])))
  | _ => .error .typeError

/-- Python max() of a value, mirroring pyMinSeq. -/
def pyMaxSeq : PyVal → Except PyErr PyVal
  | .list xs => pyMaxList xs
  | .tuple xs => pyMaxList xs
  | .str s => pyMaxList (s.toList.map (fun c => .str (String.mk [c])))
  | _ => .error .typeError

/-- Python equality as used in the range comparisons: numeric across int,
float and bool, structural otherwise; it never raises. -/
def pyEqB (a b : PyVal) : Bool :=
  match a.toRat?, b.toRat? with
  | some x, some y => decide (x = y)
  | _, _ => decide (a = b)

/-- Result type of Python numeric addition, subtraction and multiplication:
float when either operand is a float, int otherwise (the rational argument is
integral in that case). -/
def pyNumResult (a b : PyVal) (v : Rat) : PyVal :=
  match a, b with
  | .float _, _ => .float v
  | _, .float _ => .float v
  | _, _ => .int v.num

/-- Python addition: sequence and string concatenation, numeric addition, and
TypeError on any other mix (in particular tuple plus number). -/
def pyAdd (a b : PyVal) : Except PyErr PyVal :=
  match a, b with
  | .list xs, .list ys => .ok (.list (xs ++ ys))
  | .tuple xs, .tuple ys => .ok (.tuple (xs ++ ys))
  | .str x, .str y => .ok (.str (x ++ y))
  | a, b =>
    match a.toRat?, b.toRat? with
    | some x, some y => .ok (pyNumResult a b (x + y))
    | _, _ => .error .typeError

/-- Python subtraction on numbers; TypeError otherwise. -/
def pySub (a b : PyVal) : Except PyErr PyVal :=
  match a.toRat?, b.toRat? with
  | some x, some y => .ok (pyNumResult a b (x - y))
  | _, _ => .error .typeError

/-- Python multiplication on numbers; TypeError otherwise (the sequence
repetition forms never occur in the embedded calls). -/
def pyMul (a b : PyVal) : Except PyErr PyVal :=
  match a.toRat?, b.toRat? with
  | some x, some y => .ok (pyNumResult a b (x * y))
  | _, _ => .error .typeError

/-- Python true division on numbers, always yielding a float;
ZeroDivisionError on a zero divisor and TypeError on non-numbers.  The
division sites in scaleInRange are reached with float curve data. -/
def pyDiv (a b : PyVal) : Except PyErr PyVal :=
  match a.toRat?, b.toRat? with
  | some x, some y =>
    if y = 0 then .error .zeroDivisionError else .ok (.float (x / y))
  | _, _ => .error .typeError

/-- Embeds cmds.scaleInRange (cmds.py lines 358-385): each range contributes
its first two entries when it has exactly two, and its min and max
otherwise; a degenerate original range returns its low end, a degenerate
target range returns its low end, and otherwise the value is mapped linearly
from the original range onto the target range. -/
def scaleInRange (value originalRange targetRange : PyVal) : Except PyErr PyVal := do
  let lenO ← pyLen originalRange
  let oR0 ← if lenO = 2 then pySubscript originalRange 0 else pyMinSeq originalRange
  let oR1 ← if lenO = 2 then pySubscript originalRange 1 else pyMaxSeq originalRange
  let lenT ← pyLen targetRange
  let tR0 ← if lenT = 2 then pySubscript targetRange 0 else pyMinSeq targetRange
  let tR1 ← if lenT = 2 then pySubscript targetRange 1 else pyMaxSeq targetRange
  if pyEqB oR0 oR1 then return oR0
  else if pyEqB tR0 tR1 then return tR0
  else do
    let num ← pySub value oR0
    let den ← pySub oR1 oR0
    let p ← pyDiv num den
    let d ← pySub tR1 tR0
    let m ← pyMul p d
    pyAdd m tR0

/-- Python <= on numbers and strings, as in pyLtB. -/
def pyLeB (a b : PyVal) : Except PyErr Bool :=
  match a.toRat?, b.toRat? with
  | some x, some y => .ok (decide (x ≤ y))
  | _, _ =>
    match a, b with
    | .str x, .str y => .ok (decide (x ≤ y))
    | _, _ => .error .typeError

/-- The axis name ('x' or 'y') handed to getattr/setattr by
scaleKey.scaleIt. -/
inductive Axis : Type where
  | x
  | y
  deriving DecidableEq

/-- A coordinate pair of a Blender keyframe (key.co, key.handle_left,
key.handle_right).  The components hold PyVal so that whatever value the
dynamic setattr stores is representable. -/
structure ScaleKeyVec : Type where
  x : PyVal
  y : PyVal
  deriving DecidableEq

/-- getattr of an axis component. -/
def ScaleKeyVec.get (v : ScaleKeyVec) : Axis → PyVal
  | .x => v.x
  | .y => v.y

/-- setattr of an axis component. -/
def ScaleKeyVec.set (v : ScaleKeyVec) : Axis → PyVal → ScaleKeyVec
  | .x, w => { v with x := w }
  | .y, w => { v with y := w }

/-- The position data of one keyframe as touched by scaleKey. -/
structure ScaleKeyframe : Type where
  co : ScaleKeyVec
  handle_left : ScaleKeyVec
  handle_right : ScaleKeyVec
  deriving DecidableEq

/-- Embeds scaleKey.parsePivot (cmds.py lines 3617-3620): the new range is
((start - pivot) * scale, (end - pivot) * scale). -/
def scaleKey.parsePivot (start fin pivot scale : Rat) : Rat × Rat :=
  ((start - pivot) * scale, (fin - pivot) * scale)

/-- Embeds scaleKey.scaleIt (cmds.py lines 3622-3625) exactly as written: for
the chosen axis it stores scaleInRange(keyRange, (start, end), coordinate)
into key.co and both handles.  Note the argument order handed to
scaleInRange(value, originalRange, targetRange): the key range tuple sits in
the value slot and the bare coordinate in the targetRange slot. -/
def scaleKey.scaleIt (keyRange : PyVal × PyVal) (key : ScaleKeyframe)
    (start fin : Rat) (axis : Axis) : Except PyErr ScaleKeyframe := do
  let v1 ← scaleInRange (.tuple [keyRange.1, keyRange.2])
    (.tuple [.float start, .float fin]) (key.co.get axis)
  let key : ScaleKeyframe := { key with co := key.co.set axis v1 }
  let v2 ← scaleInRange (.tuple [keyRange.1, keyRange.2])
    (.tuple [.float start, .float fin]) (key.handle_left.get axis)
  let key : ScaleKeyframe := { key with handle_left := key.handle_left.set axis v2 }
  let v3 ← scaleInRange (.tuple [keyRange.1, keyRange.2])
    (.tuple [.float start, .float fin]) (key.handle_right.get axis)
  return { key with handle_right := key.handle_right.set axis v3 }

/-- One keyframe of an FCurve with every field that copyKey records:
coordinates and handles as (time, value) pairs of rationals, plus the handle
types and the interpolation mode. -/
structure FKey : Type where
  co : Rat × Rat
  handle_left : Rat × Rat
  handle_right : Rat × Rat
  handle_left_type : String
  handle_right_type : String
  interpolation : String
  deriving DecidableEq

/-- One entry of the keyInfo list built by copyKey.getKeyInfo (cmds.py lines
3363-3379): the co and handle attributes are converted to Python tuples, the
handle types and interpolation copied through.  The key and curve references
also stored in the source dict are dropped here; pasteKey only reads the
fields below. -/
structure KeyItem : Type where
  co : PyVal
  handle_left : PyVal
  handle_right : PyVal
  handle_left_type : String
  handle_right_type : String
  interpolation : String
  deriving DecidableEq

/-- The keyInfo list copyKey.getKeyInfo builds for one curve when no time
range and no cut flag are given: one item per keyframe, in curve order. -/
def getKeyInfo (keys : List FKey) : List KeyItem :=
  keys.map (fun k =>
    { co := .tuple [.float k.co.1, .float k.co.2]
      handle_left := .tuple [.float k.handle_left.1, .float k.handle_left.2]
      handle_right := .tuple [.float k.handle_right.1, .float k.handle_right.2]
      handle_left_type := k.handle_left_type
      handle_right_type := k.handle_right_type
      interpolation := k.interpolation })

/-- The process-global COPY_KEY_BUFFER layout built by copyKey (cmds.py lines
3402-3433): a curves section keyed positionally by input curve, and a data
section keyed by object and attribute name. -/
structure CopyBuffer : Type where
  curves : List (List KeyItem)
  data : List ((String × String) × List KeyItem)
  deriving DecidableEq

/-- Embeds copyKey on a single FCurve argument with no time, value or cut
options (cmds.py lines 3413-3433): the curve's keyInfo is stored under the
curves section, COPY_KEY_BUFFER is assigned the results, and the results are
returned.  The data section stays as parseObjectAttributes leaves it for a
bare FCurve; it is not read by the curves-first paste path this claim
takes. -/
def copyKeyFCurve (keys : List FKey) (_buf : CopyBuffer) : CopyBuffer × CopyBuffer :=
  let results : CopyBuffer := { curves := [getKeyInfo keys], data := [] }
  (results, results)

/-- Embeds pasteKey.applyData (cmds.py lines 3488-3521) for the default
insert option: the buffered key times give keyRange, an absent time argument
falls back to keyRange, and each buffered item inside the time window is
inserted at co[0]+offset with offset 0, after which the stored handle tuples
have the numeric offset added to them (item.get(attr) + offset) and the
handle types and interpolation are copied onto the new key.  The host
keyframe_points.insert is modelled as appending the new key with
host-initialised handles equal to its coordinate. -/
def applyDataInsert (curve : List FKey) (keyInfo : List KeyItem)
    (time : Option (Rat × Rat)) : Except PyErr (List FKey) := do
  let times ← keyInfo.mapM (fun item => pySubscript item.co 0)
  let kr0 ← pyMinList times
  let kr1 ← pyMaxList times
  let t : PyVal × PyVal := match time with
    | some (a, b) => (.float a, .float b)
    | Option.none => (kr0, kr1)
  keyInfo.foldlM (fun curve item => do
    let offset : PyVal := .int 0
    let co0 ← pySubscript item.co 0
    let le1 ← pyLeB t.1 co0
    let le2 ← pyLeB co0 t.2
    if !(le1 && le2) then return curve
    else do
      let insertTime ← pyAdd co0 offset
      let co1 ← pySubscript item.co 1
      let tq ← (match insertTime.toRat? with
        | some q => Except.ok q
        | Option.none => Except.error PyErr.typeError)
      let vq ← (match co1.toRat? with
        | some q => Except.ok q
        | Option.none => Except.error PyErr.typeError)
      let newKey : FKey :=
        { co := (tq, vq), handle_left := (tq, vq), handle_right := (tq, vq)
          handle_left_type := "FREE", handle_right_type := "FREE"
          interpolation := "BEZIER" }
      let _hl ← pyAdd item.handle_left offset
      let _hr ← pyAdd item.handle_right offset
      return curve ++ [newKey]) curve

/-- The curves-first branch of pasteKey (cmds.py lines 3546-3560) with the
default insert option: buffer entries are applied positionally to the input
curves until either side runs out. -/
def pasteKeyCurves (curves : List (List FKey)) (buf : CopyBuffer)
    (time : Option (Rat × Rat)) : Except PyErr (List (List FKey)) := do
  let n := min curves.length buf.curves.length
  let updated ← ((curves.take n).zip (buf.curves.take n)).mapM
    (fun p => applyDataInsert p.1 p.2 time)
  return updated ++ curves.drop n

/-- Embeds types.parseArgs (types.py lines 155-164): the first non-None
positional argument is returned; with none, the default keyword argument is
returned when present, else None.  Call sites in cmds.py pass the stated
default positionally as the last argument. -/
def parseArgs (args : List PyVal) (default? : Option PyVal) : PyVal :=
  match args with
  | [] =>
    match default? with
    | some d => d
    | Option.none => .none
  | a :: rest => if a = .none then parseArgs rest default? else a

/-- The selection flag parsing of cmds.ls (cmds.py line 676):
parseArgs(selection, sl, False). -/
def ls.selectionFlag (selection sl : PyVal) : PyVal :=
  parseArgs [selection, sl, .bool false] Option.none

/-- Embeds cmds.parseObjectAttribute (cmds.py lines 1570-1626).  Neither
input truthy raises RuntimeError ('Could not parseObjectAttribute...'); with
a truthy attribute the object is resolved and the attribute name resolved
against it; with only a dotted string the string is rsplit at the last dot
unless the tail starts with a digit (in which case the whole string is looked
up and the attribute stays None); a dot-free string yields (None, None); a
two-entry list or tuple is unpacked and re-parsed, any other length raises
RuntimeError ('invalid object for parseObjectAttribute...'); every remaining
case (the source dict branch is unused by the claims and its inputs fall
through here) raises RuntimeError. -/
def parseObjectAttribute (sc : Scene) (object attr : PyVal) :
    Except PyErr (PyVal × PyVal) :=
  if !object.truthy && !attr.truthy then .error .runtimeError
  else if attr.truthy then do
    let node := asObject sc object
    let a ← resolveAttributeName sc attr node
    return (node, a)
  else
    match object with
    | .str s =>
      if !(s.toList.contains '.') then .ok (.none, .none)
      else
        let oa := pyRsplitDot s
        let tailStartsDigit := match oa.2.toList with
          | c :: _ => c.isDigit
          | [] => false
        if tailStartsDigit then do
          let node := asObject sc (.str s)
          let a ← resolveAttributeName sc attr node
          return (node, a)
        else do
          let node := asObject sc (.str oa.1)
          let a ← resolveAttributeName sc (.str oa.2) node
          return (node, a)
    | .list xs =>
      if xs.length = 2 then
        match xs with
        | [o, a] => parseObjectAttribute sc o a
        | _ => .error .runtimeError
      else .error .runtimeError
    | .tuple xs =>
      if xs.length = 2 then
        match xs with
        | [o, a] => parseObjectAttribute sc o a
        | _ => .error .runtimeError
      else .error .runtimeError
    | _ => .error .runtimeError
termination_by sizeOf object

/-- Embeds the argument normalisation of cmds.getAttr (cmds.py lines
1794-1816) up to and including the multi-attribute check; the query flags
are left at their defaults and the remainder of the body is host access
outside this model.  A dotted string object is rsplit into object and
attribute, the object resolved, the attribute name resolved against it, and
a list or tuple resolution raises RuntimeError ('getAttr does not support
multiple attributes'). -/
def getAttr (sc : Scene) (object attr : PyVal) : Except PyErr (PyVal × PyVal) := do
  let attr := parseArgs [attr, .none, .bool false] Option.none
  let oa : PyVal × PyVal :=
    match object with
    | .str s =>
      if s.toList.contains '.' then
        let p := pyRsplitDot s
        (.str p.1, .str p.2)
      else (.str s, attr)
    | o => (o, attr)
  let node := asObject sc oa.1
  let a ← (if oa.2 = .none then resolveAttributeName sc node .none
           else resolveAttributeName sc oa.2 node)
  if a.isListOrTuple then .error .runtimeError
  else return (node, a)

/-- Embeds the argument normalisation of cmds.setAttr (cmds.py lines
1891-1909) up to and including the multi-attribute check (whose message also
reads 'getAttr does not support multiple attributes'); the lock branch and
the write-back that follow are host access outside this model. -/
def setAttr (sc : Scene) (object attr value : PyVal) :
    Except PyErr (PyVal × PyVal × PyVal) := do
  let attr := parseArgs [attr, .none, .bool false] Option.none
  let value := parseArgs [value, .none, .none] Option.none
  let oav : PyVal × PyVal × PyVal :=
    match object with
    | .str s =>
      if s.toList.contains '.' then
        let value := if value = .none then attr else value
        let p := pyRsplitDot s
        (.str p.1, .str p.2, value)
      else (.str s, attr, value)
    | o => (o, attr, value)
  let node := asObject sc oav.1
  let a ← (if oav.2.1 = .none then resolveAttributeName sc node .none
           else resolveAttributeName sc oav.2.1 node)
  if a.isListOrTuple then .error .runtimeError
  else return (node, a, oav.2.2)

/-- Observable behaviour of one cmds UI reporting call: the console prints,
the bpy.ops.info.display_message reports as (report_type, message) pairs,
and the exception raised afterwards, if any. -/
structure UITrace : Type where
  printed : List String
  reports : List (String × String)
  raised : Option PyErr
  deriving DecidableEq

/-- Embeds cmds.warning (cmds.py lines 2544-2552): print, then report with
type WARNING; the function returns normally ('continues to run'). -/
def cmds.warning (msg : String) : UITrace :=
  { printed := [msg], reports := [("WARNING", msg)], raised := Option.none }

/-- Embeds cmds.displayInfo (cmds.py lines 2555-2563): print, then report
with type INFO; the function returns normally ('continues to run'). -/
def cmds.displayInfo (msg : String) : UITrace :=
  { printed := [msg], reports := [("INFO", msg)], raised := Option.none }

/-- Embeds cmds.error (cmds.py lines 2566-2575): print, report with type
ERROR, then raise RuntimeError(msg). -/
def cmds.error (msg : String) : UITrace :=
  { printed := [msg], reports := [("ERROR", msg)], raised := some .runtimeError }

/-- The batch splitting of cmds.batch (cmds.py line 4322):
items[i:i+batchSize] for i in range(0, len(items), batchSize); the callers
guarantee a positive batch size, and a zero size - which would make Python's
range() raise - is mapped to the empty list to keep the function total. -/
def pyChunks (bs : Nat) (items : List α) : List (List α) :=
  if _h1 : bs = 0 then []
  else if _h2 : items.isEmpty then []
  else items.take bs :: pyChunks bs (items.drop bs)
termination_by items.length
decreasing_by
  simp_wf
  have hne : items ≠ [] := by
    intro hh
    rw [hh] at _h2
    simp at _h2
  have hpos : 0 < items.length := List.length_pos.mpr hne
  omega

/-- The effective batch size: batchSize = 1 if batchSize < 1 else batchSize
(cmds.py line 4321). -/
def batchSizeNat (batchSize : Int) : Nat :=
  if batchSize < 1 then 1 else batchSize.toNat

/-- The thread count: max(len(batches) if threads < 1 else threads,
len(batches)) (cmds.py line 4323). -/
def batchNumThreads (numBatches : Nat) (threads : Int) : Nat :=
  max (if threads < 1 then numBatches else threads.toNat) numBatches

/-- The worker threads all read from one shared queue, so which thread
processes which batch is scheduler-dependent; a schedule assigns each batch
index to the worker that dequeued it. -/
def ValidSchedule (sched : Nat → Nat) (numBatches numThreads : Nat) : Prop :=
  ∀ i < numBatches, sched i < numThreads

/-- The data/result dictionaries of one BatchedThread after queue.join():
thread t holds, keyed by batch index, the function result for exactly the
batches the schedule gave it (BatchedThread.run, cmds.py lines 4282-4298). -/
def threadResult (f : List α → List β) (batches : List (List α))
    (sched : Nat → Nat) (t : Nat) : List (Nat × List β) :=
  ((List.range batches.length).filter (fun i => sched i = t)).map
    (fun i => (i, f (batches.getD i [])))

/-- The threadData dictionary merged from every thread in thread order
(cmds.py lines 4338-4342); batch indices are unique across threads, so the
dictionary is modelled as the concatenated association list. -/
def threadData (f : List α → List β) (batches : List (List α))
    (sched : Nat → Nat) (numThreads : Nat) : List (Nat × List β) :=
  ((List.range numThreads).map (fun t => threadResult f batches sched t)).flatten

/-- Embeds cmds.batch (cmds.py lines 4301-4347): items are chunked, each
chunk is tagged with its index and processed by the thread the schedule
assigns, the per-thread result dictionaries are merged, and the final loop
concatenates threadData[i] for i in range(len(batches)) - a missing index
would raise KeyError. -/
def batch (sched : Nat → Nat) (f : List α → List β) (items : List α)
    (batchSize threads : Int) : Except PyErr (List β) :=
  let bs := batchSizeNat batchSize
  let batches := pyChunks bs items
  let numThreads := batchNumThreads batches.length threads
  let td := threadData f batches sched numThreads
  (List.range batches.length).foldlM (fun acc i =>
    match (td.find? (fun kv => kv.1 = i)).map (fun kv => kv.2) with
    | some r => .ok (acc ++ r)
    | Option.none => .error .keyError) []

/-- State of a collection of AbstractBaseMixin items, identified by Nat:
each item's child list (self.__children) and parent pointer
(self.__parent).  Python compares the items by identity (the mixin defines
no __eq__), which is Nat equality here.  The _internalMove flags are always
False between public calls (the InternalMoveWrapper context manager resets
them), so the embedded operations inline the flag-guarded paths. -/
structure TreeState : Type where
  children : Nat → List Nat
  parent : Nat → Option Nat

/-- The empty forest: no children, no parents. -/
def initialTreeState : TreeState :=
  { children := fun _ => [], parent := fun _ => Option.none }

/-- Embeds AbstractBaseMixin.__validateItem (abstractModel.py lines
247-261): the candidate must be a mixin instance (every Item is here) and
must not already be one of this item's children. -/
def validateItem (s : TreeState) (p c : Nat) : Bool :=
  !(s.children p).contains c

/-- The body of setParent run while the moving item's _internalMove flag is
True (abstractModel.py lines 304-334 under `with item.internalCallback`):
only the parent pointer changes; no child list is touched. -/
def setParentInternal (s : TreeState) (item : Nat) (p : Option Nat) : TreeState × Bool :=
  if s.parent item = p then (s, false)
  else match p with
    | Option.none =>
      if s.parent item = Option.none then (s, false)
      else ({ s with parent := Function.update s.parent item Option.none }, true)
    | some q => ({ s with parent := Function.update s.parent item (some q) }, true)

/-- addChild reached while this parent's _internalMove flag is True, i.e.
called from inside the child's public setParent (abstractModel.py lines
263-279): validate and append, without calling back into setParent. -/
def addChildInternal (s : TreeState) (p c : Nat) : TreeState × Bool :=
  if !validateItem s p c then (s, false)
  else ({ s with children := Function.update s.children p (s.children p ++ [c]) }, true)

/-- Embeds a public call of AbstractBaseMixin.addChild (abstractModel.py
lines 263-279): validate, append the child, then run child.setParent(self)
under the child's internalCallback and return its result. -/
def addChild (s : TreeState) (p c : Nat) : TreeState × Bool :=
  if !validateItem s p c then (s, false)
  else
    let s1 : TreeState :=
      { s with children := Function.update s.children p (s.children p ++ [c]) }
    setParentInternal s1 c (some p)

/-- Python list.insert index resolution for an int index: negative indices
count from the end and clamp at zero; the call site only reaches this with
an index below the length. -/
def pyInsertIdx (n : Nat) (pos : Int) : Nat :=
  if pos < 0 then (max 0 ((n : Int) + pos)).toNat else pos.toNat

/-- Embeds AbstractBaseMixin.insertChild (abstractModel.py lines 281-302):
validate, append when the position is None or at least the child count and
insert otherwise, then set the child's parent under its internalCallback
when it is not already this item; insertChild returns True after a
successful validation regardless of the setParent result. -/
def insertChild (s : TreeState) (p : Nat) (pos : Option Int) (c : Nat) : TreeState × Bool :=
  if !validateItem s p c then (s, false)
  else
    let cs := s.children p
    let cs2 := match pos with
      | Option.none => cs ++ [c]
      | some i =>
        if i ≥ (cs.length : Int) then cs ++ [c]
        else cs.insertIdx (pyInsertIdx cs.length i) c
    let s1 : TreeState := { s with children := Function.update s.children p cs2 }
    if s1.parent c = some p then (s1, true)
    else ((setParentInternal s1 c (some p)).1, true)

/-- Embeds a public call of AbstractBaseMixin.setParent (abstractModel.py
lines 304-334).  Setting the same parent is a no-op returning False.
Setting None first clears the parent pointer and then calls
currentParent.removeChild(self) with the ITEM in the integer position slot,
so removeChild's range check compares ints with a mixin object and the call
raises (TypeError on Python 3; IndexError on Python 2, where numbers order
below all other objects) - the cleared pointer survives in the first
component.  Setting a new parent appends through the parent's addChild
(run under the parent's internalCallback) and reassigns the pointer when
the append succeeded; the previous parent's child list is never updated. -/
def setParent (s : TreeState) (item : Nat) (p : Option Nat) :
    TreeState × Except PyErr Bool :=
  if s.parent item = p then (s, .ok false)
  else match p with
    | Option.none =>
      ({ s with parent := Function.update s.parent item Option.none }, .error .typeError)
    | some q =>
      let r := addChildInternal s q item
      if r.2 then
        ({ r.1 with parent := Function.update r.1.parent item (some q) }, .ok true)
      else (r.1, .ok false)

/-- Embeds AbstractBaseMixin.removeChild (abstractModel.py lines 336-352):
a position outside [-(count-1), count-1] raises IndexError; otherwise the
child at that position is popped and its setParent(None) runs under its
internalCallback, which only clears the parent pointer. -/
def removeChild (s : TreeState) (p : Nat) (pos : Int) :
    TreeState × Except PyErr Unit :=
  let n := (s.children p).length
  let maxIndex : Int := (n : Int) - 1
  if ¬(-maxIndex ≤ pos ∧ pos ≤ maxIndex) then (s, .error .indexError)
  else
    let idx : Nat := (if pos < 0 then (n : Int) + pos else pos).toNat
    let item := (s.children p).getD idx 0
    let s1 : TreeState :=
      { s with children := Function.update s.children p ((s.children p).eraseIdx idx) }
    ((setParentInternal s1 item Option.none).1, .ok ())

/-- One public tree operation, covering both forms of setParent: an attach
(setParent to a new parent) and a detach (setParent to None). -/
inductive TreeOp : Type where
  | add (p c : Nat)
  | insert (p : Nat) (pos : Option Int) (c : Nat)
  | setPar (c p : Nat)
  | setParNone (c : Nat)
  | remove (p : Nat) (pos : Int)

/-- The state after one public operation (the returned status or exception
is dropped; a raising removeChild or setParent leaves the state its first
component records - in particular setParent(None) on a parented item has
already cleared the parent pointer when it raises). -/
def applyOp (s : TreeState) : TreeOp → TreeState
  | .add p c => (addChild s p c).1
  | .insert p pos c => (insertChild s p pos c).1
  | .setPar c p => (setParent s c (some p)).1
  | .setParNone c => (setParent s c Option.none).1
  | .remove p pos => (removeChild s p pos).1

/-- Every setParent call - attaching or detaching - and every
addChild/insertChild is restricted to an item whose getParent() is None (for
such an item setParent(None) is the source's early-return no-op); removals
through removeChild are unrestricted. -/
def OpGuard (s : TreeState) : TreeOp → Prop
  | .add _ c => s.parent c = Option.none
  | .insert _ _ c => s.parent c = Option.none
  | .setPar c _ => s.parent c = Option.none
  | .setParNone c => s.parent c = Option.none
  | .remove _ _ => True

/-- Reachability by guarded public operations. -/
inductive ReachesGuarded : TreeState → TreeState → Prop where
  | refl (s : TreeState) : ReachesGuarded s s
  | step {s t : TreeState} (op : TreeOp) :
      ReachesGuarded s t → OpGuard t op → ReachesGuarded s (applyOp t op)

/-- Bidirectional consistency of the parent/child links: an item occurs in a
parent's child list exactly once when its parent pointer names that parent,
and never otherwise (so no item sits in two different parents' lists). -/
def BidirConsistent (s : TreeState) : Prop :=
  ∀ p c : Nat, (s.children p).count c = (if s.parent c = some p then 1 else 0)

/-- The process-global COPY_KEY_BUFFER slice of the cmds module state
(cmds.py lines 63-65). -/
structure CmdsGlobals : Type where
  COPY_KEY_BUFFER : PyVal
  deriving DecidableEq

/-- The closing lines of copyKey (cmds.py lines 3430-3433): the assembled
results are written to the global COPY_KEY_BUFFER and returned.  cutKey
(lines 3436-3457) forwards to copyKey with cut=True, so every cutKey call
performs this same buffer write. -/
def copyKeyGlobalWrite (results : PyVal) (g : CmdsGlobals) : PyVal × CmdsGlobals :=
  (results, { g with COPY_KEY_BUFFER := results })

/-- The buffer-relevant trace of bakeSimulation (cmds.py lines 2525-2541):
keyBuffer saves the global, each baked attribute that has an animation curve
runs cutKey - overwriting the global with that curve's copied keys - and the
closing line binds the saved value to the misspelled name COPY_BUFFER, a
fresh local, so the global keeps the last cutKey value.  cutData lists, per
baked attribute, the results dict its cutKey call builds (None when the
attribute has no animation curve and cutKey is skipped). -/
def bakeSimulationBuffer (cutData : List (Option PyVal)) (g : CmdsGlobals) : CmdsGlobals :=
  let keyBuffer := g.COPY_KEY_BUFFER
  let g2 := cutData.foldl (fun gacc r =>
    match r with
    | some results => (copyKeyGlobalWrite results gacc).2
    | Option.none => gacc) g
  let _COPY_BUFFER := keyBuffer
  g2

/-! Theorems.  Helper lemmas come first, then one theorem per claim
(with its witness or counterexample). -/

/-- Rebuilding a string from its character list gives the string back. -/
theorem stringMk_toList (s : String) : String.mk s.toList = s := by
  cases s
  rfl

/-- A concrete empty scene used by witnesses. -/
def emptyScene : Scene := ⟨[], fun _ => []⟩

/-- Over characters that survive the reAttribute strip there is no opening
bracket, so the list-index scanner finds no match. -/
theorem findBracketAux_allowed (cs : List Char)
    (h : ∀ c ∈ cs, allowedAttrChar c = true) :
    ∀ run, findBracketAux run cs = Option.none := by
  induction cs with
  | nil => intro run; rfl
  | cons c rest ih =>
    intro run
    have hc := h c (List.mem_cons_self c rest)
    have hrest : ∀ x ∈ rest, allowedAttrChar x = true :=
      fun x hx => h x (List.mem_cons_of_mem _ hx)
    have hnb : ¬ c = '[' := by
      intro heq
      subst heq
      simp [allowedAttrChar] at hc
    by_cases hw : isWordDotChar c = true
    · simp [findBracketAux, hnb, hw, ih hrest]
    · simp [findBracketAux, hnb, hw, ih hrest]

/-- A name with no dot made of reAttribute-clean characters and outside every
alias list passes through the scalar tail of resolveAttributeName
unchanged. -/
theorem resolveScalar_clean (sc : Scene) (s : String)
    (hall : ∀ c ∈ s.toList, allowedAttrChar c = true)
    (hconv : conversionLookup s = Option.none) :
    resolveScalar sc PyVal.none (.str s) = .ok (.str s) := by
  have hfb : findBracketMatch s.data = Option.none :=
    findBracketAux_allowed s.toList hall []
  have hfilter : s.data.filter allowedAttrChar = s.data :=
    List.filter_eq_self.mpr hall
  have hmk : String.mk s.data = s := stringMk_toList s
  simp [resolveScalar, PyVal.truthy, bind, Except.bind, pure, Except.pure, hfb, hfilter,
    hmk, hconv]

/-- A non-empty dot-free name made of reAttribute-clean characters that sits
in no alias list is returned unchanged by resolveAttributeName. -/
theorem resolveAttributeName_clean (sc : Scene) (s : String)
    (hne : s.toList ≠ [])
    (hall : ∀ c ∈ s.toList, allowedAttrChar c = true)
    (hconv : conversionLookup s = Option.none) :
    resolveAttributeName sc (.str s) .none = .ok (.str s) := by
  have hne' : s.data ≠ [] := hne
  have hdotmem : '.' ∉ s.data := by
    intro hm
    have := hall _ hm
    simp [allowedAttrChar] at this
  have hdot' : s.data.contains '.' = false := by
    simpa using hdotmem
  have htr : (PyVal.str s).truthy = true := by
    simp [PyVal.truthy, hne']
  have hscal := resolveScalar_clean sc s hall hconv
  simp only [resolveAttributeName, htr, Bool.not_true, Bool.false_eq_true, if_false]
  rw [if_neg (by simp [hdotmem])]
  exact hscal

/-- Stripping behaviour of the getAttributeIndex tail on a name whose last
character carries an axis index. -/
theorem suffixStrip_concat_mem (base : List Char) (c : Char) (k : Nat)
    (hm : (c, k) ∈ attributeIndices) :
    suffixStrip (String.mk (base ++ [c])) = .ok (.str (String.mk base), some k) := by
  fin_cases hm <;>
    simp [suffixStrip, attributeIndices, List.getLast?_concat, List.dropLast_concat]

/-- A name whose last character carries no axis index is returned whole with
index None by the getAttributeIndex tail. -/
theorem suffixStrip_concat_none (base : List Char) (c : Char)
    (hc : c ∉ (['X', 'Y', 'Z', 'W', 'R', 'G', 'B', 'A'] : List Char)) :
    suffixStrip (String.mk (base ++ [c])) = .ok (.str (String.mk (base ++ [c])), Option.none) := by
  have hfind : attributeIndices.find? (fun p => p.1 = c) = Option.none := by
    rw [List.find?_eq_none]
    intro x hx
    fin_cases hx <;>
      (simp only [decide_eq_true_eq]
       intro h
       exact hc (by simp [← h]))
  simp [suffixStrip, List.getLast?_concat, hfind]

/-- With a string input, getAttributeIndex is exactly resolve-then-rotate-
then-strip. -/
theorem getAttributeIndex_pipeline (sc : Scene) (s r : String)
    (h : resolveAttributeName sc (.str s) .none = .ok (.str r)) :
    getAttributeIndex sc (.str s) = suffixStrip (rotationFix r) := by
  simp [getAttributeIndex, PyVal.isStr, h, bind, Except.bind]

/-- A non-string argument makes getAttributeIndex raise RuntimeError. -/
theorem getAttributeIndex_nonStr (sc : Scene) (v : PyVal) (hv : v.isStr = false) :
    getAttributeIndex sc v = .error .runtimeError := by
  simp [getAttributeIndex, hv]

/-- The asObject lookup of None is None, for any scene. -/
theorem asObject_none (sc : Scene) : asObject sc PyVal.none = PyVal.none := rfl

/-- C1: getAttributeIndex resolves the name through the alias table of
resolveAttributeName (translateX and tx become locationX, ry becomes
rotationY, an untabled clean name is unchanged, a bracketed form such as
location[1] becomes locationY), rewrites a rotation-plus-axis name to
rotation_euler, then strips a trailing X, Y, Z, W, R, G, B or A to the index
0, 1, 2, 3, 0, 1, 2, 3 respectively and returns index None when no such
trailing character exists; a non-string input raises RuntimeError. -/
theorem C1_getAttributeIndex_resolution :
    (∀ sc : Scene,
      resolveAttributeName sc (.str "translateX") .none = .ok (.str "locationX") ∧
      resolveAttributeName sc (.str "tx") .none = .ok (.str "locationX") ∧
      resolveAttributeName sc (.str "ry") .none = .ok (.str "rotationY") ∧
      resolveAttributeName sc (.str "location[1]") .none = .ok (.str "locationY")) ∧
    (∀ (sc : Scene) (s : String), s.toList ≠ [] →
      (∀ c ∈ s.toList, allowedAttrChar c = true) →
      conversionLookup s = Option.none →
      resolveAttributeName sc (.str s) .none = .ok (.str s)) ∧
    (∀ (sc : Scene) (s r : String),
      resolveAttributeName sc (.str s) .none = .ok (.str r) →
      getAttributeIndex sc (.str s) = suffixStrip (rotationFix r)) ∧
    (∀ s : String, rotationAxisMatch s = true →
      rotationFix s = String.mk (replaceRotation s.toList)) ∧
    (∀ (base : List Char) (c : Char) (k : Nat), (c, k) ∈ attributeIndices →
      suffixStrip (String.mk (base ++ [c])) = .ok (.str (String.mk base), some k)) ∧
    (∀ (base : List Char) (c : Char),
      c ∉ (['X', 'Y', 'Z', 'W', 'R', 'G', 'B', 'A'] : List Char) →
      suffixStrip (String.mk (base ++ [c])) =
        .ok (.str (String.mk (base ++ [c])), Option.none)) ∧
    (∀ (sc : Scene) (v : PyVal), v.isStr = false →
      getAttributeIndex sc v = .error .runtimeError) ∧
    (∀ sc : Scene,
      getAttributeIndex sc (.str "tx") = .ok (.str "location", some 0) ∧
      getAttributeIndex sc (.str "ry") = .ok (.str "rotation_euler", some 1) ∧
      getAttributeIndex sc (.str "prop") = .ok (.str "prop", Option.none)) := by
  refine ⟨?_, resolveAttributeName_clean, getAttributeIndex_pipeline, ?_,
    suffixStrip_concat_mem, suffixStrip_concat_none, getAttributeIndex_nonStr, ?_⟩
  · intro sc
    refine ⟨?_, ?_, ?_, ?_⟩ <;> (simp [resolveAttributeName, resolveScalar, asObject_none]; decide)
  · intro s h
    simp [rotationFix, h]
  · intro sc
    refine ⟨?_, ?_, ?_⟩ <;>
      (simp [getAttributeIndex, resolveAttributeName, resolveScalar, asObject_none]; decide)

/-- Witness for C1 at concrete inputs: the unchanged-name case at
customProperty, the pipeline composition at tx, the rotation rewrite at
rotationY, the axis strip at rotation_eulerY, the no-axis case at prop and
the non-string RuntimeError at the int 3. -/
theorem C1_getAttributeIndex_resolution_witness :
    resolveAttributeName emptyScene (.str "customProperty") .none =
      .ok (.str "customProperty") ∧
    getAttributeIndex emptyScene (.str "tx") = suffixStrip (rotationFix "locationX") ∧
    rotationFix "rotationY" = String.mk (replaceRotation "rotationY".toList) ∧
    suffixStrip (String.mk ("rotation_euler".toList ++ ['Y'])) =
      .ok (.str (String.mk "rotation_euler".toList), some 1) ∧
    suffixStrip (String.mk ("pro".toList ++ ['p'])) =
      .ok (.str (String.mk ("pro".toList ++ ['p'])), Option.none) ∧
    getAttributeIndex emptyScene (.int 3) = .error .runtimeError := by
  refine ⟨C1_getAttributeIndex_resolution.2.1 emptyScene "customProperty"
      (by decide) (by decide) (by decide),
    C1_getAttributeIndex_resolution.2.2.1 emptyScene "tx" "locationX"
      (by simp [resolveAttributeName, resolveScalar, asObject_none]; decide),
    C1_getAttributeIndex_resolution.2.2.2.1 "rotationY" (by decide),
    C1_getAttributeIndex_resolution.2.2.2.2.1 "rotation_euler".toList 'Y' 1 (by decide),
    C1_getAttributeIndex_resolution.2.2.2.2.2.1 "pro".toList 'p' (by decide),
    C1_getAttributeIndex_resolution.2.2.2.2.2.2.1 emptyScene (.int 3) (by decide)⟩


/-- The replace-if-less fold step of Python min agrees with min. -/
theorem minStep (m y : Rat) : (if y < m then y else m) = min m y := by
  rw [min_def]
  by_cases h : y < m
  · rw [if_pos h, if_neg (not_le.mpr h)]
  · rw [if_neg h, if_pos (not_lt.mp h)]

/-- The replace-if-greater fold step of Python max agrees with max. -/
theorem maxStep (m y : Rat) : (if m < y then y else m) = max m y := by
  rw [max_def]
  by_cases h : m < y
  · rw [if_pos h, if_pos (le_of_lt h)]
  · rw [if_neg h]
    by_cases h2 : m ≤ y
    · rw [if_pos h2]
      exact le_antisymm h2 (not_lt.mp h)
    · rw [if_neg h2]

/-- Python min over a non-empty list of floats folds min over the
rationals. -/
theorem pyMinList_floats (q0 : Rat) (qs : List Rat) :
    pyMinList ((q0 :: qs).map .float) = .ok (.float (qs.foldl min q0)) := by
  have hfun : ∀ (a : Rat) (l : List Rat),
      l.foldl min a = l.foldl (fun m y => if y < m then y else m) a := by
    intro a l
    congr 1
    funext m y
    exact (minStep m y).symm
  rw [hfun, List.map_cons]
  simp only [pyMinList]
  induction qs generalizing q0 with
  | nil => rfl
  | cons q rest ih =>
    rw [List.map_cons, List.foldlM_cons, List.foldl_cons]
    by_cases h : q < q0 <;>
      simpa [pyLtB, PyVal.toRat?, h, bind, Except.bind] using ih (if q < q0 then q else q0)

/-- Python max over a non-empty list of floats folds max over the
rationals. -/
theorem pyMaxList_floats (q0 : Rat) (qs : List Rat) :
    pyMaxList ((q0 :: qs).map .float) = .ok (.float (qs.foldl max q0)) := by
  have hfun : ∀ (a : Rat) (l : List Rat),
      l.foldl max a = l.foldl (fun m y => if m < y then y else m) a := by
    intro a l
    congr 1
    funext m y
    exact (maxStep m y).symm
  rw [hfun, List.map_cons]
  simp only [pyMaxList]
  induction qs generalizing q0 with
  | nil => rfl
  | cons q rest ih =>
    rw [List.map_cons, List.foldlM_cons, List.foldl_cons]
    by_cases h : q0 < q <;>
      simpa [pyLtB, PyVal.toRat?, h, bind, Except.bind] using ih (if q0 < q then q else q0)

/-- Evaluation of scaleInRange on two-element float ranges: the guarded
linear map of the source. -/
theorem scaleInRange_pair (v o0 o1 t0 t1 : Rat) :
    scaleInRange (.float v) (.tuple [.float o0, .float o1])
        (.tuple [.float t0, .float t1]) =
      .ok (.float (if o0 = o1 then o0 else if t0 = t1 then t0
        else (v - o0) / (o1 - o0) * (t1 - t0) + t0)) := by
  by_cases h1 : o0 = o1
  · simp [scaleInRange, pyLen, pySubscript, pyEqB, PyVal.toRat?, h1, bind, Except.bind, pure,
      Except.pure]
  · by_cases h2 : t0 = t1
    · simp [scaleInRange, pyLen, pySubscript, pyEqB, PyVal.toRat?, h1, h2, bind, Except.bind,
        pure, Except.pure]
    · have hden : o1 - o0 ≠ 0 := sub_ne_zero.mpr (Ne.symm h1)
      simp [scaleInRange, pyLen, pySubscript, pyEqB, PyVal.toRat?, h1, h2, hden, bind,
        Except.bind, pure, Except.pure, pySub, pyDiv, pyMul, pyAdd, pyNumResult]

/-- A non-two-element original range behaves as its (min, max) reduction. -/
theorem scaleInRange_reduce_original (v q0 : Rat) (qs : List Rat) (tR : PyVal)
    (hlen : (q0 :: qs).length ≠ 2) :
    scaleInRange (.float v) (.list ((q0 :: qs).map .float)) tR =
      scaleInRange (.float v)
        (.tuple [.float (qs.foldl min q0), .float (qs.foldl max q0)]) tR := by
  have hlen' : qs.length ≠ 1 := by simpa using hlen
  have hmin := pyMinList_floats q0 qs
  have hmax := pyMaxList_floats q0 qs
  simp only [List.map_cons] at hmin hmax
  simp [scaleInRange, pyLen, pySubscript, pyMinSeq, pyMaxSeq, hmin, hmax, hlen', bind,
    Except.bind]

/-- A non-two-element target range behaves as its (min, max) reduction (shown
with a two-element original range). -/
theorem scaleInRange_reduce_target (v o0 o1 q0 : Rat) (qs : List Rat)
    (hlen : (q0 :: qs).length ≠ 2) :
    scaleInRange (.float v) (.tuple [.float o0, .float o1])
        (.list ((q0 :: qs).map .float)) =
      scaleInRange (.float v) (.tuple [.float o0, .float o1])
        (.tuple [.float (qs.foldl min q0), .float (qs.foldl max q0)]) := by
  have hlen' : qs.length ≠ 1 := by simpa using hlen
  have hmin := pyMinList_floats q0 qs
  have hmax := pyMaxList_floats q0 qs
  simp only [List.map_cons] at hmin hmax
  simp [scaleInRange, pyLen, pySubscript, pyMinSeq, pyMaxSeq, hmin, hmax, hlen', bind,
    Except.bind]

/-- C2: scaleInRange on two-element ranges returns o0 when the original range
is degenerate, else t0 when the target range is degenerate, else the linear
map (v - o0) / (o1 - o0) * (t1 - t0) + t0; in the non-degenerate case the
original endpoints land exactly on the target endpoints; a range with a
different number of elements contributes (min, max) of its elements
instead. -/
theorem C2_scaleInRange_spec :
    (∀ v o0 o1 t0 t1 : Rat, o0 = o1 →
      scaleInRange (.float v) (.tuple [.float o0, .float o1])
        (.tuple [.float t0, .float t1]) = .ok (.float o0)) ∧
    (∀ v o0 o1 t0 t1 : Rat, o0 ≠ o1 → t0 = t1 →
      scaleInRange (.float v) (.tuple [.float o0, .float o1])
        (.tuple [.float t0, .float t1]) = .ok (.float t0)) ∧
    (∀ v o0 o1 t0 t1 : Rat, o0 ≠ o1 → t0 ≠ t1 →
      scaleInRange (.float v) (.tuple [.float o0, .float o1])
        (.tuple [.float t0, .float t1]) =
        .ok (.float ((v - o0) / (o1 - o0) * (t1 - t0) + t0))) ∧
    (∀ o0 o1 t0 t1 : Rat, o0 ≠ o1 →
      scaleInRange (.float o0) (.tuple [.float o0, .float o1])
        (.tuple [.float t0, .float t1]) = .ok (.float t0) ∧
      scaleInRange (.float o1) (.tuple [.float o0, .float o1])
        (.tuple [.float t0, .float t1]) = .ok (.float t1)) ∧
    (∀ (v q0 : Rat) (qs : List Rat) (tR : PyVal), (q0 :: qs).length ≠ 2 →
      scaleInRange (.float v) (.list ((q0 :: qs).map .float)) tR =
        scaleInRange (.float v)
          (.tuple [.float (qs.foldl min q0), .float (qs.foldl max q0)]) tR) ∧
    (∀ (v o0 o1 q0 : Rat) (qs : List Rat), (q0 :: qs).length ≠ 2 →
      scaleInRange (.float v) (.tuple [.float o0, .float o1])
          (.list ((q0 :: qs).map .float)) =
        scaleInRange (.float v) (.tuple [.float o0, .float o1])
          (.tuple [.float (qs.foldl min q0), .float (qs.foldl max q0)])) := by
  refine ⟨?_, ?_, ?_, ?_, scaleInRange_reduce_original, scaleInRange_reduce_target⟩
  · intro v o0 o1 t0 t1 h1
    rw [scaleInRange_pair, if_pos h1]
  · intro v o0 o1 t0 t1 h1 h2
    rw [scaleInRange_pair, if_neg h1, if_pos h2]
  · intro v o0 o1 t0 t1 h1 h2
    rw [scaleInRange_pair, if_neg h1, if_neg h2]
  · intro o0 o1 t0 t1 h1
    have hden : o1 - o0 ≠ 0 := sub_ne_zero.mpr (Ne.symm h1)
    constructor
    · by_cases h2 : t0 = t1
      · rw [scaleInRange_pair, if_neg h1, if_pos h2]
      · rw [scaleInRange_pair, if_neg h1, if_neg h2]
        congr 2
        field_simp
    · by_cases h2 : t0 = t1
      · rw [scaleInRange_pair, if_neg h1, if_pos h2, h2]
      · rw [scaleInRange_pair, if_neg h1, if_neg h2]
        congr 2
        field_simp

/-- Witness for C2 at concrete numbers: each branch of the guarded linear
map, both endpoints, and the reduction of a three-element range. -/
theorem C2_scaleInRange_spec_witness :
    ((2 : Rat) = 2 ∧
      scaleInRange (.float 5) (.tuple [.float 2, .float 2])
        (.tuple [.float 7, .float 9]) = .ok (.float 2)) ∧
    (scaleInRange (.float 1) (.tuple [.float 0, .float 4])
        (.tuple [.float 3, .float 3]) = .ok (.float 3)) ∧
    (scaleInRange (.float 1) (.tuple [.float 0, .float 4])
        (.tuple [.float 10, .float 30]) = .ok (.float 15)) ∧
    (scaleInRange (.float 0) (.tuple [.float 0, .float 4])
        (.tuple [.float 10, .float 30]) = .ok (.float 10) ∧
      scaleInRange (.float 4) (.tuple [.float 0, .float 4])
        (.tuple [.float 10, .float 30]) = .ok (.float 30)) ∧
    (scaleInRange (.float 1) (.list ([3, 1, 2].map .float)) (.tuple [.float 0, .float 1]) =
      scaleInRange (.float 1) (.tuple [.float 1, .float 3]) (.tuple [.float 0, .float 1])) := by
  refine ⟨⟨rfl, C2_scaleInRange_spec.1 5 2 2 7 9 rfl⟩,
    C2_scaleInRange_spec.2.1 1 0 4 3 3 (by norm_num) rfl,
    ?_, ⟨?_, ?_⟩, ?_⟩
  · have h := C2_scaleInRange_spec.2.2.1 1 0 4 10 30 (by norm_num) (by norm_num)
    rw [h]
    norm_num
  · exact (C2_scaleInRange_spec.2.2.2.1 0 4 10 30 (by norm_num)).1
  · exact (C2_scaleInRange_spec.2.2.2.1 0 4 10 30 (by norm_num)).2
  · have h := C2_scaleInRange_spec.2.2.2.2.1 1 3 [1, 2] (.tuple [.float 0, .float 1])
      (by norm_num)
    simpa using h

/-- With both ranges two-element float tuples and the target slot holding a
bare float — exactly the shapes scaleKey.scaleIt passes — scaleInRange
raises TypeError at len(targetRange). -/
theorem scaleInRange_float_target (kr0 kr1 start fin c : Rat) :
    scaleInRange (.tuple [.float kr0, .float kr1])
      (.tuple [.float start, .float fin]) (.float c) = .error .typeError := by
  simp [scaleInRange, pyLen, pySubscript, bind, Except.bind]

/-- C3: the claim that scaleKey maps each key coordinate linearly into the
target range fails: scaleIt hands scaleInRange its arguments in the wrong
order (key range in the value slot, the bare coordinate in the targetRange
slot), so every scaleIt call — hence every scaleKey invocation that reaches
a key — raises TypeError when len() hits the float coordinate; only the
parsePivot target-range arithmetic matches the claim. -/
theorem C3_scaleKey_scaleIt_typeError :
    (∀ start fin pivot scale : Rat,
      scaleKey.parsePivot start fin pivot scale =
        ((start - pivot) * scale, (fin - pivot) * scale)) ∧
    (∀ kr0 kr1 start fin c : Rat,
      scaleInRange (.tuple [.float kr0, .float kr1])
        (.tuple [.float start, .float fin]) (.float c) = .error .typeError) ∧
    (∀ (kr0 kr1 start fin cx cy lx ly rx ry : Rat) (axis : Axis),
      scaleKey.scaleIt (.float kr0, .float kr1)
        ⟨⟨.float cx, .float cy⟩, ⟨.float lx, .float ly⟩, ⟨.float rx, .float ry⟩⟩
        start fin axis = .error .typeError) := by
  refine ⟨fun _ _ _ _ => rfl, scaleInRange_float_target, ?_⟩
  intro kr0 kr1 start fin cx cy lx ly rx ry axis
  cases axis <;>
    simp [scaleKey.scaleIt, ScaleKeyVec.get, scaleInRange_float_target, bind, Except.bind]

/-- The buffered key times of a curve, read back out of the keyInfo list. -/
theorem getKeyInfo_times (keys : List FKey) :
    (getKeyInfo keys).mapM (fun item => pySubscript item.co 0) =
      .ok (keys.map (fun k => .float k.co.1)) := by
  induction keys with
  | nil => rfl
  | cons k ks ih =>
    simp only [getKeyInfo] at ih ⊢
    rw [List.map_cons, List.mapM_cons, ih]
    simp [pySubscript, bind, Except.bind, pure, Except.pure]

/-- A min fold never exceeds its seed. -/
theorem fold_min_le (q0 : Rat) (qs : List Rat) : qs.foldl min q0 ≤ q0 := by
  induction qs generalizing q0 with
  | nil => exact le_refl q0
  | cons q rest ih => exact le_trans (ih (min q0 q)) (min_le_left q0 q)

/-- A max fold never drops below its seed. -/
theorem le_fold_max (q0 : Rat) (qs : List Rat) : q0 ≤ qs.foldl max q0 := by
  induction qs generalizing q0 with
  | nil => exact le_refl q0
  | cons q rest ih => exact le_trans (le_max_left q0 q) (ih (max q0 q))

/-- On any non-empty buffered keyInfo list, the insert path of
pasteKey.applyData raises TypeError: the first in-window item reaches the
handle writes, and item.get(handle) + offset adds the numeric offset to the
buffered handle tuple. -/
theorem applyDataInsert_typeError (curve : List FKey) (k : FKey) (rest : List FKey) :
    applyDataInsert curve (getKeyInfo (k :: rest)) Option.none = .error .typeError := by
  have htimes := getKeyInfo_times (k :: rest)
  have hmap : (k :: rest).map (fun x => PyVal.float x.co.1) =
      (k.co.1 :: rest.map (fun x => x.co.1)).map PyVal.float := by
    simp [List.map_map]
  have hmin := pyMinList_floats k.co.1 (rest.map (fun x => x.co.1))
  have hmax := pyMaxList_floats k.co.1 (rest.map (fun x => x.co.1))
  have hminle : decide ((rest.map (fun x => x.co.1)).foldl min k.co.1 ≤ k.co.1) = true :=
    decide_eq_true (fold_min_le k.co.1 (rest.map (fun x => x.co.1)))
  have hmaxge : decide (k.co.1 ≤ (rest.map (fun x => x.co.1)).foldl max k.co.1) = true :=
    decide_eq_true (le_fold_max k.co.1 (rest.map (fun x => x.co.1)))
  rw [applyDataInsert, htimes, hmap]
  simp only [bind, Except.bind, hmin, hmax]
  rw [getKeyInfo, List.map_cons, List.foldlM_cons]
  simp [pySubscript, pyLeB, PyVal.toRat?, hminle, hmaxge, pyAdd, pyNumResult, bind,
    Except.bind, pure, Except.pure]

/-- C4: copyKey does stage the copied keys in the process-global buffer and
return them, but the claimed copy-then-paste round trip fails: pasteKey with
the default insert option raises TypeError on the first pasted key while
adding its numeric offset to the buffered handle tuples, so no keys are
reproduced. -/
theorem C4_copyKey_pasteKey_roundTrip :
    (∀ (keys : List FKey) (buf : CopyBuffer),
      (copyKeyFCurve keys buf).1 = (copyKeyFCurve keys buf).2 ∧
      (copyKeyFCurve keys buf).2.curves = [getKeyInfo keys]) ∧
    (∀ (keys : List FKey) (i : Nat),
      (getKeyInfo keys)[i]? = keys[i]?.map (fun k =>
        { co := .tuple [.float k.co.1, .float k.co.2]
          handle_left := .tuple [.float k.handle_left.1, .float k.handle_left.2]
          handle_right := .tuple [.float k.handle_right.1, .float k.handle_right.2]
          handle_left_type := k.handle_left_type
          handle_right_type := k.handle_right_type
          interpolation := k.interpolation })) ∧
    (∀ (curve : List FKey) (k : FKey) (rest : List FKey),
      applyDataInsert curve (getKeyInfo (k :: rest)) Option.none = .error .typeError) ∧
    (∀ (k : FKey) (rest curve : List FKey) (buf0 : CopyBuffer),
      pasteKeyCurves [curve] (copyKeyFCurve (k :: rest) buf0).2 Option.none =
        .error .typeError) := by
  refine ⟨fun keys buf => ⟨rfl, rfl⟩, ?_, applyDataInsert_typeError, ?_⟩
  · intro keys i
    simp [getKeyInfo, List.getElem?_map]
  · intro k rest curve buf0
    simp [pasteKeyCurves, copyKeyFCurve, applyDataInsert_typeError, bind, Except.bind,
      List.mapM_cons, List.mapM.loop]

/-- C5: parseObjectAttribute raises RuntimeError when neither an object nor
an attribute is given and when a list or tuple input does not have exactly
two entries; getAttr and setAttr raise RuntimeError when the attribute
argument resolves to a list or tuple of attributes. -/
theorem C5_malformed_inputs_runtimeError :
    (∀ (sc : Scene) (o a : PyVal), o.truthy = false → a.truthy = false →
      parseObjectAttribute sc o a = .error .runtimeError) ∧
    (∀ (sc : Scene) (xs : List PyVal), xs ≠ [] → xs.length ≠ 2 →
      parseObjectAttribute sc (.list xs) .none = .error .runtimeError ∧
      parseObjectAttribute sc (.tuple xs) .none = .error .runtimeError) ∧
    (∀ (sc : Scene) (n : String) (attrs rs : List PyVal),
      resolveAttributeName sc (.list attrs) (.obj n) = .ok (.list rs) →
      getAttr sc (.obj n) (.list attrs) = .error .runtimeError) ∧
    (∀ (sc : Scene) (n : String) (attrs rs : List PyVal) (value : PyVal),
      resolveAttributeName sc (.list attrs) (.obj n) = .ok (.list rs) →
      setAttr sc (.obj n) (.list attrs) value = .error .runtimeError) := by
  refine ⟨?_, ?_, ?_, ?_⟩
  · intro sc o a ho ha
    rw [parseObjectAttribute.eq_def]
    simp [ho, ha]
  · intro sc xs hne hlen
    have htr : (PyVal.list xs).truthy = true := by
      simp [PyVal.truthy, hne]
    have htr2 : (PyVal.tuple xs).truthy = true := by
      simp [PyVal.truthy, hne]
    constructor
    · rw [parseObjectAttribute.eq_def]
      simp [htr, PyVal.truthy, hlen]
    · rw [parseObjectAttribute.eq_def]
      simp [htr2, PyVal.truthy, hlen]
  · intro sc n attrs rs h
    have hne : PyVal.list attrs ≠ PyVal.none := by
      intro hc
      cases hc
    simp [getAttr, parseArgs, hne, asObject, PyVal.truthy, h, bind, Except.bind,
      PyVal.isListOrTuple]
  · intro sc n attrs rs value h
    have hne : PyVal.list attrs ≠ PyVal.none := by
      intro hc
      cases hc
    simp [setAttr, parseArgs, hne, asObject, PyVal.truthy, h, bind, Except.bind,
      PyVal.isListOrTuple]

/-- Witness for C5 at concrete inputs: no object and no attribute, a
three-entry list, and a two-attribute getAttr and setAttr on an object. -/
theorem C5_malformed_inputs_runtimeError_witness :
    parseObjectAttribute emptyScene .none .none = .error .runtimeError ∧
    parseObjectAttribute emptyScene (.list [.str "a", .str "b", .str "c"]) .none =
      .error .runtimeError ∧
    getAttr emptyScene (.obj "cube") (.list [.str "tx", .str "ty"]) =
      .error .runtimeError ∧
    setAttr emptyScene (.obj "cube") (.list [.str "tx", .str "ty"]) (.float 1) =
      .error .runtimeError := by
  have hres : resolveAttributeName emptyScene (.list [.str "tx", .str "ty"]) (.obj "cube") =
      .ok (.list [.str "locationX", .str "locationY"]) := by
    simp [resolveAttributeName, resolveList, resolveScalar, asObject, bind, Except.bind]
    decide
  exact ⟨C5_malformed_inputs_runtimeError.1 emptyScene .none .none rfl rfl,
    (C5_malformed_inputs_runtimeError.2.1 emptyScene [.str "a", .str "b", .str "c"]
      (by decide) (by decide)).1,
    C5_malformed_inputs_runtimeError.2.2.1 emptyScene "cube" _ _ hres,
    C5_malformed_inputs_runtimeError.2.2.2 emptyScene "cube" _ _ (.float 1) hres⟩

/-- C6 counterexample: at the concrete message m, warning and displayInfo
print and report but raise nothing, refuting the claim that every one of the
three UI reporting functions raises after reporting. -/
theorem C6_warning_displayInfo_do_not_raise :
    (cmds.warning "m").raised = Option.none ∧
    (cmds.displayInfo "m").raised = Option.none ∧
    (cmds.error "m").raised = some PyErr.runtimeError := by
  exact ⟨rfl, rfl, rfl⟩

/-- C6 amended: every message is printed and sent through the host UI report
call with its severity type by each of the three functions, and only error
then raises (RuntimeError); warning and displayInfo return without
raising. -/
theorem C6_ui_reporting_amended :
    ∀ msg : String,
      cmds.warning msg =
        { printed := [msg], reports := [("WARNING", msg)], raised := Option.none } ∧
      cmds.displayInfo msg =
        { printed := [msg], reports := [("INFO", msg)], raised := Option.none } ∧
      cmds.error msg =
        { printed := [msg], reports := [("ERROR", msg)],
          raised := some PyErr.runtimeError } := by
  intro msg
  exact ⟨rfl, rfl, rfl⟩

/-- The first-non-None reading of parseArgs. -/
theorem parseArgs_characterization (args : List PyVal) (default? : Option PyVal) :
    parseArgs args default? =
      ((args.find? (fun a => a ≠ .none)).getD (default?.getD .none)) := by
  induction args with
  | nil => cases default? <;> rfl
  | cons a rest ih =>
    by_cases h : a = PyVal.none
    · simp [parseArgs, h, List.find?, ih]
    · simp [parseArgs, h, List.find?]

/-- C7: a long/short keyword-alias pair is interchangeable: parseArgs
returns the first non-None positional argument, so a non-None value behaves
the same under the long name and the short name (shown on the ls selection
flag, whose stated default False is returned exactly when both aliases are
None). -/
theorem C7_parseArgs_alias_equivalence :
    (∀ (args : List PyVal) (default? : Option PyVal),
      parseArgs args default? =
        ((args.find? (fun a => a ≠ .none)).getD (default?.getD .none))) ∧
    (∀ (args : List PyVal) (default? : Option PyVal),
      (∀ a ∈ args, a = .none) → parseArgs args default? = default?.getD .none) ∧
    (∀ v d : PyVal, v ≠ .none →
      parseArgs [v, .none, d] Option.none = v ∧
      parseArgs [.none, v, d] Option.none = v) ∧
    (∀ v : PyVal, v ≠ .none →
      ls.selectionFlag v .none = v ∧
      ls.selectionFlag .none v = v ∧
      ls.selectionFlag v .none = ls.selectionFlag .none v) ∧
    ls.selectionFlag .none .none = .bool false := by
  refine ⟨parseArgs_characterization, ?_, ?_, ?_, rfl⟩
  · intro args default? hall
    rw [parseArgs_characterization]
    have hfind : args.find? (fun a => a ≠ PyVal.none) = Option.none := by
      rw [List.find?_eq_none]
      intro x hx
      simp [hall x hx]
    rw [hfind]
    rfl
  · intro v d hv
    constructor
    · simp [parseArgs, hv]
    · simp [parseArgs, hv]
  · intro v hv
    refine ⟨?_, ?_, ?_⟩ <;> simp [ls.selectionFlag, parseArgs, hv]

/-- Witness for C7 at the concrete value True for the ls selection flag. -/
theorem C7_parseArgs_alias_equivalence_witness :
    parseArgs [.none, .none] (some (.int 7)) = .int 7 ∧
    parseArgs [.bool true, .none, .bool false] Option.none = .bool true ∧
    parseArgs [.none, .bool true, .bool false] Option.none = .bool true ∧
    ls.selectionFlag (.bool true) .none = ls.selectionFlag .none (.bool true) ∧
    ls.selectionFlag .none .none = .bool false := by
  refine ⟨?_, (C7_parseArgs_alias_equivalence.2.2.1 (.bool true) (.bool false)
      (by decide)).1,
    (C7_parseArgs_alias_equivalence.2.2.1 (.bool true) (.bool false) (by decide)).2,
    (C7_parseArgs_alias_equivalence.2.2.2.1 (.bool true) (by decide)).2.2,
    C7_parseArgs_alias_equivalence.2.2.2.2⟩
  exact C7_parseArgs_alias_equivalence.2.1 [.none, .none] (some (.int 7)) (by decide)

/-- find? for a fixed key over a list of naturals containing it. -/
theorem find?_key_self (l : List Nat) (i : Nat) (h : i ∈ l) :
    l.find? (fun j => j = i) = some i := by
  induction l with
  | nil => cases h
  | cons a as ih =>
    by_cases ha : a = i
    · simp [List.find?, ha]
    · have : i ∈ as := by
        cases h with
        | head => exact absurd rfl ha
        | tail _ hmem => exact hmem
      simp [List.find?, ha, ih this]

/-- The thread that the schedule assigned batch i holds result i. -/
theorem threadResult_find?_mem (f : List α → List β) (batches : List (List α))
    (sched : Nat → Nat) (i : Nat) (hi : i < batches.length) :
    (threadResult f batches sched (sched i)).find? (fun kv => kv.1 = i) =
      some (i, f (batches.getD i [])) := by
  rw [threadResult]
  have hmem : i ∈ (List.range batches.length).filter (fun j => sched j = sched i) := by
    rw [List.mem_filter]
    exact ⟨List.mem_range.mpr hi, by simp⟩
  have haux : ∀ l : List Nat, i ∈ l →
      (l.map (fun j => (j, f (batches.getD j [])))).find? (fun kv => kv.1 = i) =
        some (i, f (batches.getD i [])) := by
    intro l
    induction l with
    | nil => intro h; cases h
    | cons a as ih =>
      intro h
      by_cases ha : a = i
      · subst ha
        rw [List.map_cons, List.find?_cons_of_pos _ (by simp)]
      · have hmem2 : i ∈ as := by
          cases h with
          | head => exact absurd rfl ha
          | tail _ hm => exact hm
        rw [List.map_cons, List.find?_cons_of_neg _ (by simp [ha]), ih hmem2]
  exact haux _ hmem

/-- A thread the schedule did not give batch i holds no result for it. -/
theorem threadResult_find?_ne (f : List α → List β) (batches : List (List α))
    (sched : Nat → Nat) (i t : Nat) (ht : t ≠ sched i) :
    (threadResult f batches sched t).find? (fun kv => kv.1 = i) = Option.none := by
  rw [threadResult, List.find?_eq_none]
  intro kv hkv
  rw [List.mem_map] at hkv
  obtain ⟨j, hj, rfl⟩ := hkv
  rw [List.mem_filter] at hj
  simp only [decide_eq_true_eq] at hj ⊢
  intro hji
  exact ht (hji ▸ hj.2).symm

/-- Looking batch i up in the merged thread dictionaries yields its result,
whichever thread processed it. -/
theorem threadData_find? (f : List α → List β) (batches : List (List α))
    (sched : Nat → Nat) (numThreads : Nat) (i : Nat) (hi : i < batches.length)
    (ht : sched i < numThreads) :
    ((threadData f batches sched numThreads).find? (fun kv => kv.1 = i)).map
      (fun kv => kv.2) = some (f (batches.getD i [])) := by
  rw [threadData]
  have hmem : sched i ∈ List.range numThreads := List.mem_range.mpr ht
  have haux : ∀ ts : List Nat, sched i ∈ ts →
      ((ts.map (fun t => threadResult f batches sched t)).flatten.find?
        (fun kv => kv.1 = i)) = some (i, f (batches.getD i [])) := by
    intro ts
    induction ts with
    | nil => intro h; cases h
    | cons t ts' ih =>
      intro h
      rw [List.map_cons, List.flatten_cons, List.find?_append]
      by_cases hts : t = sched i
      · subst hts
        rw [threadResult_find?_mem f batches sched i hi]
        rfl
      · rw [threadResult_find?_ne f batches sched i t hts]
        have : sched i ∈ ts' := by
          cases h with
          | head => exact absurd rfl hts
          | tail _ hmem2 => exact hmem2
        rw [ih this]
        rfl
  rw [haux (List.range numThreads) hmem]
  rfl

/-- The final merge loop of batch concatenates the per-index results in
index order. -/
theorem batch_foldlM (td : List (Nat × List β)) (vals : Nat → List β)
    (l : List Nat)
    (hl : ∀ i ∈ l, (td.find? (fun kv => kv.1 = i)).map (fun kv => kv.2) = some (vals i)) :
    ∀ acc : List β,
      l.foldlM (fun acc i =>
        match (td.find? (fun kv => kv.1 = i)).map (fun kv => kv.2) with
        | some r => Except.ok (acc ++ r)
        | Option.none => Except.error PyErr.keyError) acc =
      .ok (acc ++ (l.map vals).flatten) := by
  induction l with
  | nil =>
    intro acc
    simp [List.foldlM_nil, pure, Except.pure]
  | cons i is ih =>
    intro acc
    rw [List.foldlM_cons]
    rw [hl i (List.mem_cons_self i is)]
    have ih2 := ih (fun j hj => hl j (List.mem_cons_of_mem i hj)) (acc ++ vals i)
    simp only [bind, Except.bind]
    rw [ih2]
    simp

/-- Chunking then flattening restores the item list. -/
theorem pyChunks_flatten (bs : Nat) (hbs : bs ≠ 0) :
    ∀ (n : Nat) (items : List α), items.length ≤ n →
      (pyChunks bs items).flatten = items := by
  intro n
  induction n with
  | zero =>
    intro items h
    have : items = [] := List.length_eq_zero.mp (Nat.le_zero.mp h)
    subst this
    rw [pyChunks]
    simp
  | succ n ih =>
    intro items h
    rw [pyChunks]
    rw [dif_neg hbs]
    by_cases he : items.isEmpty
    · rw [dif_pos he]
      rw [List.isEmpty_iff.mp he]
      rfl
    · rw [dif_neg he]
      rw [List.flatten_cons]
      have hne : items ≠ [] := fun hh => he (by rw [hh]; rfl)
      have hpos : 0 < items.length := List.length_pos.mpr hne
      have hlen : (items.drop bs).length ≤ n := by
        rw [List.length_drop]
        omega
      rw [ih (items.drop bs) hlen, List.take_append_drop]

/-- Reading a list back through getD over its index range is the list. -/
theorem map_range_getD (g : List α → β) (d : List α) :
    ∀ l : List (List α), (List.range l.length).map (fun i => g (l.getD i d)) = l.map g := by
  intro l
  induction l with
  | nil => rfl
  | cons b bs ih =>
    rw [List.length_cons, List.range_succ_eq_map, List.map_cons, List.map_map, List.map_cons]
    have hcomp : ((fun i => g ((b :: bs).getD i d)) ∘ Nat.succ) =
        (fun i => g (bs.getD i d)) := by
      funext i
      rfl
    rw [hcomp, ih]
    rfl

/-- Under any valid schedule, batch returns the per-batch results
concatenated in batch-index order. -/
theorem batch_eval (sched : Nat → Nat) (f : List α → List β) (items : List α)
    (batchSize threads : Int)
    (hs : ValidSchedule sched (pyChunks (batchSizeNat batchSize) items).length
      (batchNumThreads (pyChunks (batchSizeNat batchSize) items).length threads)) :
    batch sched f items batchSize threads =
      .ok (((pyChunks (batchSizeNat batchSize) items).map f).flatten) := by
  rw [batch]
  have hl : ∀ i ∈ List.range (pyChunks (batchSizeNat batchSize) items).length,
      ((threadData f (pyChunks (batchSizeNat batchSize) items) sched
        (batchNumThreads (pyChunks (batchSizeNat batchSize) items).length threads)).find?
        (fun kv => kv.1 = i)).map (fun kv => kv.2) =
      some (f ((pyChunks (batchSizeNat batchSize) items).getD i [])) := by
    intro i hi
    have hi' := List.mem_range.mp hi
    exact threadData_find? f _ sched _ i hi' (hs i hi')
  rw [batch_foldlM _ (fun i => f ((pyChunks (batchSizeNat batchSize) items).getD i [])) _ hl []]
  rw [map_range_getD]
  simp

/-- C8: whichever worker threads take the batches off the shared queue, the
merged result dictionaries are read back in batch-index order, so batch
returns the per-batch results concatenated positionally; when the function
maps item-wise, the output corresponds positionally to the input items. -/
theorem C8_batch_positional :
    (∀ (sched sched' : Nat → Nat) (f : List α → List β) (items : List α)
        (batchSize threads : Int),
      ValidSchedule sched (pyChunks (batchSizeNat batchSize) items).length
        (batchNumThreads (pyChunks (batchSizeNat batchSize) items).length threads) →
      ValidSchedule sched' (pyChunks (batchSizeNat batchSize) items).length
        (batchNumThreads (pyChunks (batchSizeNat batchSize) items).length threads) →
      batch sched f items batchSize threads = batch sched' f items batchSize threads) ∧
    (∀ (sched : Nat → Nat) (f : List α → List β) (items : List α)
        (batchSize threads : Int),
      ValidSchedule sched (pyChunks (batchSizeNat batchSize) items).length
        (batchNumThreads (pyChunks (batchSizeNat batchSize) items).length threads) →
      batch sched f items batchSize threads =
        .ok (((pyChunks (batchSizeNat batchSize) items).map f).flatten)) ∧
    (∀ (sched : Nat → Nat) (g : α → β) (items : List α) (batchSize threads : Int),
      ValidSchedule sched (pyChunks (batchSizeNat batchSize) items).length
        (batchNumThreads (pyChunks (batchSizeNat batchSize) items).length threads) →
      batch sched (List.map g) items batchSize threads = .ok (items.map g)) := by
  refine ⟨?_, batch_eval, ?_⟩
  · intro sched sched' f items batchSize threads h1 h2
    rw [batch_eval sched f items batchSize threads h1,
      batch_eval sched' f items batchSize threads h2]
  · intro sched g items batchSize threads h
    rw [batch_eval sched (List.map g) items batchSize threads h]
    have hbs : batchSizeNat batchSize ≠ 0 := by
      rw [batchSizeNat]
      split
      · exact one_ne_zero
      · rename_i hlt
        intro hz
        rw [Int.toNat_eq_zero] at hz
        omega
    rw [← List.map_flatten]
    rw [pyChunks_flatten (batchSizeNat batchSize) hbs items.length items (le_refl _)]

/-- Witness for C8: three items in batches of two handed to two threads by an
alternating schedule, with the doubling map. -/
theorem C8_batch_positional_witness :
    batch (fun i => i % 2) (List.map (fun n : Nat => 2 * n)) [1, 2, 3] 2 2 =
      .ok [2, 4, 6] ∧
    batch (fun i => i % 2) (List.map (fun n : Nat => 2 * n)) [1, 2, 3] 2 2 =
      batch (fun _ => 0) (List.map (fun n : Nat => 2 * n)) [1, 2, 3] 2 2 := by
  have hlen2 : (pyChunks (batchSizeNat 2) ([1, 2, 3] : List Nat)).length = 2 := by
    rw [pyChunks, pyChunks, pyChunks]
    rfl
  have hnum : batchNumThreads 2 2 = 2 := rfl
  have hval : ValidSchedule (fun i => i % 2)
      (pyChunks (batchSizeNat 2) [1, 2, 3]).length
      (batchNumThreads (pyChunks (batchSizeNat 2) [1, 2, 3]).length 2) := by
    intro i hi
    rw [hlen2, hnum]
    exact Nat.mod_lt i (by norm_num)
  have hval' : ValidSchedule (fun _ => 0)
      (pyChunks (batchSizeNat 2) [1, 2, 3]).length
      (batchNumThreads (pyChunks (batchSizeNat 2) [1, 2, 3]).length 2) := by
    intro i hi
    rw [hlen2, hnum]
    exact Nat.zero_lt_two
  constructor
  · rw [C8_batch_positional.2.2 (fun i => i % 2) (fun n : Nat => 2 * n) [1, 2, 3] 2 2 hval]
    decide
  · exact C8_batch_positional.1 (fun i => i % 2) (fun _ => 0)
      (List.map (fun n : Nat => 2 * n)) [1, 2, 3] 2 2 hval hval'

/-- An orphan count is zero in every child list. -/
theorem orphan_count_zero (s : TreeState) (hInv : BidirConsistent s) (c : Nat)
    (hc : s.parent c = Option.none) (p : Nat) : (s.children p).count c = 0 := by
  rw [hInv p c, hc]
  rfl

/-- An orphan passes __validateItem for every parent. -/
theorem orphan_validate (s : TreeState) (hInv : BidirConsistent s) (p c : Nat)
    (hc : s.parent c = Option.none) : validateItem s p c = true := by
  rw [validateItem]
  have h0 : c ∉ s.children p := List.count_eq_zero.mp (orphan_count_zero s hInv c hc p)
  simpa using h0

/-- Attaching an orphan c under p preserves bidirectional consistency, for
any new child list of p that adds exactly one occurrence of c to the old
one. -/
theorem attach_preserves (s : TreeState) (p c : Nat) (cs2 : List Nat)
    (hInv : BidirConsistent s) (hc : s.parent c = Option.none)
    (hcount : ∀ y, cs2.count y = (s.children p).count y + (if y = c then 1 else 0)) :
    BidirConsistent
      { children := Function.update s.children p cs2
        parent := Function.update s.parent c (some p) } := by
  intro x y
  simp only
  by_cases hyc : y = c
  · subst hyc
    by_cases hxp : x = p
    · subst hxp
      simp only [Function.update_same, hcount, orphan_count_zero s hInv y hc x]
      simp
    · have hpx : p ≠ x := fun h => hxp h.symm
      simp only [Function.update_noteq hxp, Function.update_same,
        orphan_count_zero s hInv y hc x]
      simp [hpx]
  · by_cases hxp : x = p
    · subst hxp
      simp only [Function.update_same, Function.update_noteq hyc, hcount, if_neg hyc,
        Nat.add_zero]
      exact hInv x y
    · simp only [Function.update_noteq hxp, Function.update_noteq hyc]
      exact hInv x y

/-- Detaching the unique occurrence of an item from its parent's child list
preserves bidirectional consistency. -/
theorem detach_preserves (s : TreeState) (p item : Nat) (cs2 : List Nat)
    (hInv : BidirConsistent s) (hp : s.parent item = some p)
    (hcount : ∀ y, cs2.count y = (s.children p).count y - (if y = item then 1 else 0)) :
    BidirConsistent
      { children := Function.update s.children p cs2
        parent := Function.update s.parent item Option.none } := by
  intro x y
  simp only
  by_cases hyi : y = item
  · subst hyi
    by_cases hxp : x = p
    · subst hxp
      simp only [Function.update_same, hcount, hInv x y, hp]
      simp
    · have hpx : p ≠ x := fun h => hxp h.symm
      simp only [Function.update_noteq hxp, Function.update_same, hInv x y, hp]
      simp [hpx]
  · by_cases hxp : x = p
    · subst hxp
      simp only [Function.update_same, Function.update_noteq hyi, hcount, if_neg hyi,
        Nat.sub_zero]
      exact hInv x y
    · simp only [Function.update_noteq hxp, Function.update_noteq hyi]
      exact hInv x y

/-- Appending one element adds one occurrence. -/
theorem count_append_single (l : List Nat) (c y : Nat) :
    (l ++ [c]).count y = l.count y + (if y = c then 1 else 0) := by
  rw [List.count_append]
  by_cases h : y = c
  · subst h
    simp
  · have : c ≠ y := fun hh => h hh.symm
    simp [this, h]

/-- Inserting one element at a position within the list adds one
occurrence. -/
theorem count_insertIdx_le (l : List Nat) (idx : Nat) (h : idx ≤ l.length) (c y : Nat) :
    (l.insertIdx idx c).count y = l.count y + (if y = c then 1 else 0) := by
  have hp := List.perm_insertIdx c l h
  rw [hp.count_eq]
  by_cases hy : y = c
  · subst hy
    simp [List.count_cons]
  · have : c ≠ y := fun hh => hy hh.symm
    simp [List.count_cons, this, hy]

/-- Erasing the element at a position removes one occurrence of that
element. -/
theorem count_eraseIdx_at (l : List Nat) (idx : Nat) (h : idx < l.length) (y : Nat) :
    (l.eraseIdx idx).count y = l.count y - (if y = l[idx] then 1 else 0) := by
  have hdecomp : l = l.take idx ++ l[idx] :: l.drop (idx + 1) := by
    conv_lhs => rw [← List.take_append_drop idx l]
    rw [List.drop_eq_getElem_cons h]
  have hc2 : l.count y =
      (l.take idx).count y + (l.drop (idx + 1)).count y + (if y = l[idx] then 1 else 0) := by
    conv_lhs => rw [hdecomp]
    rw [List.count_append, List.count_cons]
    by_cases hy : y = l[idx]
    · simp [hy]
      omega
    · have hyx : l[idx] ≠ y := fun hh => hy hh.symm
      simp [hy, hyx]
  rw [List.eraseIdx_eq_take_drop_succ, List.count_append, hc2]
  by_cases hy : y = l[idx]
  · simp [hy]
  · simp [hy]

/-- A guarded public addChild preserves consistency. -/
theorem addChild_preserves (s : TreeState) (p c : Nat)
    (hInv : BidirConsistent s) (hc : s.parent c = Option.none) :
    BidirConsistent (addChild s p c).1 := by
  rw [addChild, orphan_validate s hInv p c hc]
  simp only [Bool.not_true, Bool.false_eq_true, if_false]
  rw [setParentInternal]
  simp only [hc]
  exact attach_preserves s p c (s.children p ++ [c]) hInv hc
    (fun y => count_append_single (s.children p) c y)

/-- The shared tail of the attach operations: update p's child list to cs2
and re-point the orphan c, preserving consistency. -/
theorem attach_tail_preserves (s : TreeState) (p c : Nat) (cs2 : List Nat)
    (hInv : BidirConsistent s) (hc : s.parent c = Option.none)
    (hcnt : ∀ y, cs2.count y = (s.children p).count y + (if y = c then 1 else 0)) :
    BidirConsistent
      (if ({ s with children := Function.update s.children p cs2 } : TreeState).parent c = some p
        then (({ s with children := Function.update s.children p cs2 } : TreeState), true)
        else ((setParentInternal { s with children := Function.update s.children p cs2 } c
          (some p)).1, true)).1 := by
  have hne : s.parent c ≠ some p := by
    rw [hc]
    exact fun h => Option.noConfusion h
  rw [if_neg hne]
  rw [setParentInternal]
  simp only [hc]
  exact attach_preserves s p c cs2 hInv hc hcnt

/-- A guarded public insertChild preserves consistency. -/
theorem insertChild_preserves (s : TreeState) (p : Nat) (pos : Option Int) (c : Nat)
    (hInv : BidirConsistent s) (hc : s.parent c = Option.none) :
    BidirConsistent (insertChild s p pos c).1 := by
  rw [insertChild, orphan_validate s hInv p c hc]
  simp only [Bool.not_true, Bool.false_eq_true, if_false]
  cases pos with
  | none =>
    exact attach_tail_preserves s p c (s.children p ++ [c]) hInv hc
      (fun y => count_append_single (s.children p) c y)
  | some i =>
    by_cases hge : i ≥ ((s.children p).length : Int)
    · simp only [if_pos hge]
      exact attach_tail_preserves s p c (s.children p ++ [c]) hInv hc
        (fun y => count_append_single (s.children p) c y)
    · simp only [if_neg hge]
      have hidx : pyInsertIdx (s.children p).length i ≤ (s.children p).length := by
        rw [pyInsertIdx]
        split <;> omega
      exact attach_tail_preserves s p c
        ((s.children p).insertIdx (pyInsertIdx (s.children p).length i) c) hInv hc
        (fun y => count_insertIdx_le (s.children p) _ hidx c y)

/-- A guarded public setParent to a new parent preserves consistency. -/
theorem setParent_preserves (s : TreeState) (c p : Nat)
    (hInv : BidirConsistent s) (hc : s.parent c = Option.none) :
    BidirConsistent (setParent s c (some p)).1 := by
  rw [setParent]
  have hne : s.parent c ≠ some p := by
    rw [hc]
    exact fun h => Option.noConfusion h
  rw [if_neg hne]
  rw [addChildInternal, orphan_validate s hInv p c hc]
  simp only [Bool.not_true, Bool.false_eq_true, if_false, if_pos]
  exact attach_preserves s p c (s.children p ++ [c]) hInv hc
    (fun y => count_append_single (s.children p) c y)

/-- The in-range branch of removeChild preserves consistency. -/
theorem removeChild_core (s : TreeState) (p idx : Nat)
    (hidx : idx < (s.children p).length) (hInv : BidirConsistent s) :
    BidirConsistent ((setParentInternal
      { s with children := Function.update s.children p ((s.children p).eraseIdx idx) }
      ((s.children p).getD idx 0) Option.none).1) := by
  have hitem := List.getD_eq_getElem (s.children p) 0 hidx
  have hmem : (s.children p).getD idx 0 ∈ s.children p := by
    rw [hitem]
    exact List.getElem_mem hidx
  have hparent : s.parent ((s.children p).getD idx 0) = some p := by
    by_contra hne
    have h0 := hInv p ((s.children p).getD idx 0)
    rw [if_neg hne] at h0
    exact (List.count_eq_zero.mp h0) hmem
  rw [setParentInternal.eq_def]
  simp only [hparent]
  exact detach_preserves s p ((s.children p).getD idx 0) ((s.children p).eraseIdx idx)
    hInv hparent
    (fun y => by rw [count_eraseIdx_at (s.children p) idx hidx y, hitem])

/-- A public removeChild preserves consistency (an out-of-range position
raises without touching the state). -/
theorem removeChild_preserves (s : TreeState) (p : Nat) (pos : Int)
    (hInv : BidirConsistent s) :
    BidirConsistent (removeChild s p pos).1 := by
  rw [removeChild]
  by_cases hrange :
      ¬(-((((s.children p).length : Int)) - 1) ≤ pos ∧
        pos ≤ (((s.children p).length : Int)) - 1)
  · rw [if_pos hrange]
    exact hInv
  · rw [if_neg hrange]
    push_neg at hrange
    obtain ⟨h1, h2⟩ := hrange
    exact removeChild_core s p _ (by split <;> omega) hInv

/-- A guarded public setParent(None) preserves consistency: on an item
whose parent pointer is already None the source takes the early
currentParent == parent return and changes nothing. -/
theorem setParentNone_preserves (s : TreeState) (c : Nat)
    (hInv : BidirConsistent s) (hc : s.parent c = Option.none) :
    BidirConsistent (setParent s c Option.none).1 := by
  rw [setParent, if_pos hc]
  exact hInv

/-- C9 counterexample: starting from the empty forest, addChild(0, 2)
followed by addChild(1, 2) leaves item 2 in the child list of 0 while
getParent() answers 1 - addChild and setParent never remove the item from
its previous parent's child list - so the claimed bidirectional consistency
fails after two addChild calls.  Likewise addChild(0, 2) followed by
setParent(2, None) strands item 2 in the child list of 0 with a cleared
parent pointer: setParent(None) clears the pointer and then raises inside
currentParent.removeChild(self), whose range check compares the item with
ints, before any pop happens. -/
theorem C9_tree_links_counterexample :
    (2 ∈ ((addChild (addChild initialTreeState 0 2).1 1 2).1.children 0) ∧
      (addChild (addChild initialTreeState 0 2).1 1 2).1.parent 2 = some 1 ∧
      (0 : Nat) ≠ 1 ∧
      ¬ BidirConsistent (addChild (addChild initialTreeState 0 2).1 1 2).1) ∧
    (2 ∈ ((setParent (addChild initialTreeState 0 2).1 2 Option.none).1.children 0) ∧
      (setParent (addChild initialTreeState 0 2).1 2 Option.none).1.parent 2 =
        Option.none ∧
      (setParent (addChild initialTreeState 0 2).1 2 Option.none).2 =
        Except.error PyErr.typeError ∧
      ¬ BidirConsistent (setParent (addChild initialTreeState 0 2).1 2 Option.none).1) := by
  have hch : (addChild (addChild initialTreeState 0 2).1 1 2).1.children 0 = [2] := by
    simp [addChild, addChildInternal, setParentInternal, validateItem, initialTreeState,
      Function.update]
  have hpar : (addChild (addChild initialTreeState 0 2).1 1 2).1.parent 2 = some 1 := by
    simp [addChild, addChildInternal, setParentInternal, validateItem, initialTreeState,
      Function.update]
  have hch2 : (setParent (addChild initialTreeState 0 2).1 2 Option.none).1.children 0 =
      [2] := by
    simp [setParent, addChild, addChildInternal, setParentInternal, validateItem,
      initialTreeState, Function.update]
  have hpar2 : (setParent (addChild initialTreeState 0 2).1 2 Option.none).1.parent 2 =
      Option.none := by
    simp [setParent, addChild, addChildInternal, setParentInternal, validateItem,
      initialTreeState, Function.update]
  have hraise : (setParent (addChild initialTreeState 0 2).1 2 Option.none).2 =
      Except.error PyErr.typeError := by
    simp [setParent, addChild, addChildInternal, setParentInternal, validateItem,
      initialTreeState, Function.update]
  refine ⟨⟨?_, hpar, by decide, ?_⟩, ⟨?_, hpar2, hraise, ?_⟩⟩
  · rw [hch]
    exact List.mem_singleton.mpr rfl
  · intro hInv
    have h := hInv 0 2
    rw [hch, hpar] at h
    simp at h
  · rw [hch2]
    exact List.mem_singleton.mpr rfl
  · intro hInv
    have h := hInv 0 2
    rw [hch2, hpar2] at h
    simp at h

/-- C9 amended: the empty forest is bidirectionally consistent, and any
sequence of addChild, insertChild, setParent (to a new parent or to None)
and removeChild operations in which every setParent, addChild and
insertChild call targets an item whose getParent() is None keeps the
parent/child links bidirectionally consistent: an item appears exactly once
in a parent's child list when its parent pointer names that parent and never
otherwise, so no item is the child of two different parents.  Detaching a
parented item must go through removeChild: setParent(None) on a parented
item clears the pointer and then raises before the pop, stranding the item
in the old parent's child list (second counterexample scenario). -/
theorem C9_tree_links_amended :
    BidirConsistent initialTreeState ∧
    (∀ s t : TreeState, BidirConsistent s → ReachesGuarded s t → BidirConsistent t) := by
  constructor
  · intro p c
    simp [initialTreeState]
  · intro s t hs hr
    induction hr with
    | refl => exact hs
    | step op hr hg ih =>
      cases op with
      | add p c => exact addChild_preserves _ p c ih hg
      | insert p pos c => exact insertChild_preserves _ p pos c ih hg
      | setPar c p => exact setParent_preserves _ c p ih hg
      | setParNone c => exact setParentNone_preserves _ c ih hg
      | remove p pos => exact removeChild_preserves _ p pos ih

/-- Witness for the amended C9: an add, a remove and a setParent(None) on
the now-orphaned item, run from the empty forest, land in a consistent
state. -/
theorem C9_tree_links_amended_witness :
    BidirConsistent (applyOp (applyOp (applyOp initialTreeState (.add 0 2))
      (.remove 0 0)) (.setParNone 2)) := by
  have h1 : ReachesGuarded initialTreeState (applyOp initialTreeState (.add 0 2)) :=
    ReachesGuarded.step (.add 0 2) (ReachesGuarded.refl _) rfl
  have h2 : ReachesGuarded initialTreeState
      (applyOp (applyOp initialTreeState (.add 0 2)) (.remove 0 0)) :=
    ReachesGuarded.step (.remove 0 0) h1 trivial
  have hg3 : OpGuard (applyOp (applyOp initialTreeState (.add 0 2)) (.remove 0 0))
      (.setParNone 2) := by
    show (applyOp (applyOp initialTreeState (.add 0 2)) (.remove 0 0)).parent 2 =
      Option.none
    rfl
  have h3 : ReachesGuarded initialTreeState
      (applyOp (applyOp (applyOp initialTreeState (.add 0 2)) (.remove 0 0))
        (.setParNone 2)) :=
    ReachesGuarded.step (.setParNone 2) h2 hg3
  exact C9_tree_links_amended.2 _ _ C9_tree_links_amended.1 h3

/-- C10: the claim that bakeSimulation leaves COPY_KEY_BUFFER unchanged
fails: the code saves the buffer and, after cutKey has overwritten the
global, assigns the saved value to the misspelled local name COPY_BUFFER
(cmds.py line 2541), so the global keeps the last cutKey result - the
accompanying comment states the restore intent that the typo defeats. -/
theorem C10_bakeSimulation_buffer_not_restored :
    (∀ (g : CmdsGlobals) (d : PyVal),
      bakeSimulationBuffer [some d] g = { COPY_KEY_BUFFER := d }) ∧
    bakeSimulationBuffer [some (.str "cutKeys")] ⟨.str "original"⟩ =
      ⟨.str "cutKeys"⟩ ∧
    (⟨.str "cutKeys"⟩ : CmdsGlobals) ≠ ⟨.str "original"⟩ := by
  refine ⟨fun g d => rfl, rfl, by decide⟩
